import Mathlib

/-! # ami-check: a shallow embedding of `cmd/ami-check` and its specification

The Go sources `amiCheck.go`, `s3Reader.go`, `ec2Images.go` and `checkConfig.go`
are translated function by function.  Go strings are modelled as lists of
characters (valid UTF-8 text), nil-able pointers as `Option`, Go `error`
values as the inductive `GoError`, and the AWS services as response functions
over the history of requests issued so far.
-/

set_option autoImplicit false

namespace AmiCheck

/-! ## Go strings and the `strings` / `unicode` functions the program calls -/

/-- A Go `string` holding valid UTF-8 text, as its list of code points. -/
abbrev GoString := List Char

/-- Go `unicode.IsSpace`: the Latin-1 spaces `\t \n \v \f \r`, space, U+0085,
U+00A0, and the other code points of the Unicode `White_Space` property. -/
def unicodeIsSpace (c : Char) : Bool :=
  let n := c.toNat
  (0x09 ≤ n && n ≤ 0x0D) || n == 0x20 || n == 0x85 || n == 0xA0 || n == 0x1680 ||
  (0x2000 ≤ n && n ≤ 0x200A) || n == 0x2028 || n == 0x2029 || n == 0x202F ||
  n == 0x205F || n == 0x3000

/-- Go `strings.TrimSpace`: removes all leading and trailing white space. -/
def stringsTrimSpace (s : GoString) : GoString :=
  ((s.dropWhile unicodeIsSpace).reverse.dropWhile unicodeIsSpace).reverse

/-- Go `strings.HasPrefix s pre`. -/
def stringsHasPrefix : GoString → GoString → Bool
  | _, [] => true
  | [], _ :: _ => false
  | c :: cs, p :: ps => c == p && stringsHasPrefix cs ps

/-- Go `strings.Contains s substr`: `substr` occurs within `s`. -/
def stringsContains : GoString → GoString → Bool
  | [], substr => stringsHasPrefix [] substr
  | c :: cs, substr => stringsHasPrefix (c :: cs) substr || stringsContains cs substr

/-- Go `strings.Split s sep` for a separator of one character: the pieces of
`s` between consecutive occurrences of `sep` (one piece when there is none,
the single empty piece for the empty string). -/
def stringsSplit : GoString → Char → List GoString
  | [], _ => [[]]
  | c :: cs, sep =>
    if c = sep then [] :: stringsSplit cs sep
    else
      match stringsSplit cs sep with
      | [] => [[c]]
      | p :: ps => (c :: p) :: ps

/-- Go `strings.Join elems sep`. -/
def stringsJoin : List GoString → GoString → GoString
  | [], _ => []
  | [e], _ => e
  | e :: f :: rest, sep => e ++ sep ++ stringsJoin (f :: rest) sep

/-! ## Go errors -/

/-- A Go `error` value: one made by `fmt.Errorf` from a finished message (or
handed back by a library), or one made by `fmt.Errorf` with a trailing `%w`
around a cause. -/
inductive GoError where
  | errorf (msg : GoString)
  | wrap (pre : GoString) (cause : GoError)
  deriving DecidableEq

/-- The `Error()` method: the message of an error. -/
def GoError.Error : GoError → GoString
  | .errorf msg => msg
  | .wrap pre cause => pre ++ cause.Error

/-! ## Data model -/

/-- The part of `kops.InstanceGroupSpec` the check reads. -/
structure InstanceGroupSpec where
  Image : GoString
  deriving DecidableEq

/-- The part of `kops.InstanceGroup` the check reads. -/
structure InstanceGroup where
  Name : GoString
  Spec : InstanceGroupSpec
  deriving DecidableEq

/-- The part of `ec2.Image` the check reads; both fields are `*string`. -/
structure Image where
  Name : Option GoString
  ImageLocation : Option GoString
  deriving DecidableEq

/-! ## amiCheck.go -/

/-- Source `extractInstanceGroupImageName` (amiCheck.go:83-99). -/
def extractInstanceGroupImageName (group : Option InstanceGroup) : Except GoError GoString :=
  match group with
  | none => .error (.errorf "instance group was nil".toList)
  | some group =>
    if group.Spec.Image.length = 0 then
      .error (.errorf ("instance group ".toList ++ group.Name ++
        " does not define an image".toList))
    else
      let parts := stringsSplit group.Spec.Image '/'
      if h : parts.length < 2 then .ok group.Spec.Image
      else .ok (parts.get ⟨1, by omega⟩)

/-- Source `imageMatchesInstanceGroup` (amiCheck.go:102-128). -/
def imageMatchesInstanceGroup (image : Option Image) (imageName : GoString) : Bool :=
  match image with
  | none => false
  | some image =>
    if imageName.length = 0 then false
    else if (match image.Name with
        | some name => stringsContains (stringsTrimSpace name) (stringsTrimSpace imageName)
        | none => false) then true
    else if (match image.ImageLocation with
        | some location =>
          stringsContains (stringsTrimSpace location) (stringsTrimSpace imageName)
        | none => false) then true
    else false

/-- The inner loop of `checkImagesAreAvailable` (amiCheck.go:64-70): the value
of `found` after scanning `images`, leaving at the first match. -/
def findImage : List (Option Image) → GoString → Bool
  | [], _ => false
  | image :: rest, imageName =>
    if imageMatchesInstanceGroup image imageName then true else findImage rest imageName

/-- One iteration of the outer loop of `checkImagesAreAvailable`
(amiCheck.go:48-77): `errorMessages` after looking at `group`. -/
def checkGroup (images : List (Option Image)) (errorMessages : List GoString)
    (group : Option InstanceGroup) : List GoString :=
  match group with
  | none => errorMessages
  | some g =>
    match extractInstanceGroupImageName (some g) with
    | .error err => errorMessages ++ [err.Error]
    | .ok imageName =>
      if !findImage images imageName then
        errorMessages ++ ["could not find image matching ".toList ++ g.Spec.Image]
      else errorMessages

/-- Source `checkImagesAreAvailable` (amiCheck.go:43-80). -/
def checkImagesAreAvailable (instanceGroups : List (Option InstanceGroup))
    (images : List (Option Image)) : List GoString :=
  instanceGroups.foldl (checkGroup images) []

/-! ## checkConfig.go -/

/-- Source constant `kopsStateStoreInstanceGroupKey` (checkConfig.go:18). -/
def kopsStateStoreInstanceGroupKey : GoString := "/instancegroup/".toList

/-- The fields of source `CheckConfig` that the check reads. -/
structure CheckConfig where
  AWSRegion : GoString
  AWSS3BucketName : GoString
  ClusterName : GoString
  deriving DecidableEq

/-! ## The AWS services, as seen through the SDK clients

The clients are the ones built for `cfg.AWSRegion`.  A response may depend on
everything requested before, so each call receives the history of requests. -/

/-- The part of `s3.Object` the check reads. -/
structure S3Object where
  Key : Option GoString
  deriving DecidableEq

/-- The `s3.ListObjectsInput` built by `listS3Objects`; `Marker` is nil in the
first request. -/
structure ListObjectsInput where
  Bucket : GoString
  Marker : Option GoString
  deriving DecidableEq

/-- The part of `s3.ListObjectsOutput` the check reads. -/
structure ListObjectsOutput where
  Contents : List (Option S3Object)
  Marker : Option GoString
  deriving DecidableEq

/-- The `s3.GetObjectInput` built by `readInstanceGroupObjects`. -/
structure GetObjectInput where
  Key : GoString
  Bucket : GoString
  deriving DecidableEq

/-- The part of `s3.GetObjectOutput` the check reads: `Body` is nil, or a
reader from which `io.ReadAll` obtains the bytes or an error. -/
structure GetObjectOutput where
  Body : Option (Except GoError GoString)

/-- The `ec2.DescribeImagesInput` built by `listEC2Images`. -/
structure DescribeImagesInput where
  Owners : List GoString
  deriving DecidableEq

/-- The part of `ec2.DescribeImagesOutput` the check reads. -/
structure DescribeImagesOutput where
  Images : List (Option Image)
  deriving DecidableEq

/-- A request sent to AWS. -/
inductive AWSRequest where
  | listObjects (input : ListObjectsInput)
  | getObject (input : GetObjectInput)
  | describeImages (input : DescribeImagesInput)
  deriving DecidableEq

/-- What lies outside the program: the answers of S3 and EC2, each a function
of the requests sent before and of the request itself, and the decoder
`kops.ParseRawYaml` of the kops library. -/
structure World where
  ListObjects : List AWSRequest → ListObjectsInput → Except GoError ListObjectsOutput
  GetObject : List AWSRequest → GetObjectInput → Except GoError (Option GetObjectOutput)
  DescribeImages : List AWSRequest → DescribeImagesInput → Except GoError DescribeImagesOutput
  ParseRawYaml : GoString → Except GoError InstanceGroup

/-! ## s3Reader.go

Every function takes the history `log` of the requests sent so far and returns
the extended history with its Go results `(value, err)`. -/

/-- The `for objects.Marker != nil` loop of `listS3Objects` (s3Reader.go:61-79),
entered with the page `objects` in hand.  Each evaluation of the loop
condition uses one unit of `fuel`; `none` means the loop is still running when
the fuel is spent. -/
def pageLoop (cfg : CheckConfig) (w : World) :
    Nat → List AWSRequest → ListObjectsOutput → List (Option S3Object) →
      Option (List AWSRequest × List (Option S3Object) × Option GoError)
  | 0, _, _, _ => none
  | fuel + 1, log, objects, results =>
    match objects.Marker with
    | none => some (log, results, none)
    | some marker =>
      if marker.length = 0 then some (log, results, none)
      else
        let input : ListObjectsInput := ⟨cfg.AWSS3BucketName, some marker⟩
        match w.ListObjects log input with
        | .error err => some (log ++ [.listObjects input], results, some err)
        | .ok next =>
          pageLoop cfg w fuel (log ++ [.listObjects input]) next (results ++ next.Contents)

/-- Source `listS3Objects` (s3Reader.go:44-83). -/
def listS3Objects (fuel : Nat) (cfg : CheckConfig) (w : World) (log : List AWSRequest) :
    Option (List AWSRequest × List (Option S3Object) × Option GoError) :=
  let input : ListObjectsInput := ⟨cfg.AWSS3BucketName, none⟩
  match w.ListObjects log input with
  | .error err => some (log ++ [.listObjects input], [], some err)
  | .ok objects => pageLoop cfg w fuel (log ++ [.listObjects input]) objects ([] ++ objects.Contents)

/-- The loop of `readInstanceGroupObjects` over the remaining objects
(s3Reader.go:98-153).  The matcher compiled from
`kopsStateStoreInstanceGroupKey` has no metacharacter and no anchor, so
`matcher.MatchString` is the substring test, and its compilation cannot
fail. -/
def readLoop (cfg : CheckConfig) (w : World) :
    List (Option S3Object) → List AWSRequest → List (Option InstanceGroup) →
      List AWSRequest × List (Option InstanceGroup) × Option GoError
  | [], log, results => (log, results, none)
  | object :: rest, log, results =>
    match object with
    | none => readLoop cfg w rest log results
    | some obj =>
      match obj.Key with
      | none => readLoop cfg w rest log results
      | some key =>
        if !stringsContains key kopsStateStoreInstanceGroupKey then
          readLoop cfg w rest log results
        else if !stringsContains key cfg.ClusterName then
          readLoop cfg w rest log results
        else
          let input : GetObjectInput := ⟨key, cfg.AWSS3BucketName⟩
          match w.GetObject log input with
          | .error err => (log ++ [.getObject input], results, some err)
          | .ok output =>
            match output with
            | none => readLoop cfg w rest (log ++ [.getObject input]) results
            | some out =>
              match out.Body with
              | none => readLoop cfg w rest (log ++ [.getObject input]) results
              | some (.error _) => readLoop cfg w rest (log ++ [.getObject input]) results
              | some (.ok objectBytes) =>
                match w.ParseRawYaml objectBytes with
                | .error _ => readLoop cfg w rest (log ++ [.getObject input]) results
                | .ok ig =>
                  readLoop cfg w rest (log ++ [.getObject input]) (results ++ [some ig])

/-- Source `readInstanceGroupObjects` (s3Reader.go:86-154). -/
def readInstanceGroupObjects (cfg : CheckConfig) (w : World) (log : List AWSRequest)
    (objects : List (Option S3Object)) :
    List AWSRequest × List (Option InstanceGroup) × Option GoError :=
  readLoop cfg w objects log []

/-- The end of one pass of the loop of `readInstanceGroupObjects`
(s3Reader.go:127-150), once `GetObject` has answered with `output`: the
instance group appended to `results`, if any.  Nothing is appended when
`output` or its body is nil, when `io.ReadAll` fails, or when
`kops.ParseRawYaml` fails; the bytes read go to the decoder whatever their
number. -/
def decodedRecord (w : World) (output : Option GetObjectOutput) : Option InstanceGroup :=
  match output with
  | some ⟨some (.ok objectBytes)⟩ =>
    match w.ParseRawYaml objectBytes with
    | .ok ig => some ig
    | .error _ => none
  | _ => none

/-- Source `listKopsInstanceGroups` (s3Reader.go:17-41); the returned slice is
`none` where the source returns `nil`.  `s3.New` always returns a client, so
the nil-client branch is never taken. -/
def listKopsInstanceGroups (fuel : Nat) (cfg : CheckConfig) (w : World)
    (log : List AWSRequest) :
    Option (List AWSRequest × Option (List (Option InstanceGroup)) × Option GoError) :=
  match listS3Objects fuel cfg w log with
  | none => none
  | some (log1, _, some err) => some (log1, none, some err)
  | some (log1, objects, none) =>
    match readInstanceGroupObjects cfg w log1 objects with
    | (log2, _, some err) => some (log2, none, some err)
    | (log2, instanceGroups, none) => some (log2, some instanceGroups, none)

/-! ## ec2Images.go -/

/-- Source constant `wellKnownAccountKopeio`. -/
def wellKnownAccountKopeio : GoString := "383156758163".toList
/-- Source constant `wellKnownAccountRedhat`. -/
def wellKnownAccountRedhat : GoString := "309956199498".toList
/-- Source constant `wellKnownAccountCoreOS`. -/
def wellKnownAccountCoreOS : GoString := "595879546273".toList
/-- Source constant `wellKnownAccountAmazonLinux2`. -/
def wellKnownAccountAmazonLinux2 : GoString := "137112412989".toList

/-- Source `listEC2Images` (ec2Images.go:23-49). -/
def listEC2Images (_cfg : CheckConfig) (w : World) (log : List AWSRequest) :
    List AWSRequest × Option (List (Option Image)) × Option GoError :=
  let input : DescribeImagesInput :=
    ⟨[wellKnownAccountKopeio, wellKnownAccountRedhat, wellKnownAccountCoreOS,
      wellKnownAccountAmazonLinux2]⟩
  match w.DescribeImages log input with
  | .error err =>
    (log ++ [.describeImages input], none, some (.wrap "failed to list EC2 images: ".toList err))
  | .ok result => (log ++ [.describeImages input], some result.Images, none)

/-! ## amiCheck.go: the run -/

/-- Source `runCheck` (amiCheck.go:14-40): the history and the returned error
(`none` for nil), or `none` while `listS3Objects` is still running. -/
def runCheck (fuel : Nat) (cfg : CheckConfig) (w : World) (log : List AWSRequest) :
    Option (List AWSRequest × Option GoError) :=
  match listKopsInstanceGroups fuel cfg w log with
  | none => none
  | some (log1, _, some err) =>
    some (log1, some (.wrap "failed to list kops instance groups: ".toList err))
  | some (log1, instanceGroups, none) =>
    match listEC2Images cfg w log1 with
    | (log2, _, some err) => some (log2, some (.wrap "failed to list AMIs: ".toList err))
    | (log2, images, none) =>
      let errors := checkImagesAreAvailable (instanceGroups.getD []) (images.getD [])
      if errors.length ≠ 0 then some (log2, some (.errorf (stringsJoin errors "; ".toList)))
      else some (log2, none)

/-! ## checkConfig.go: region validation -/

/-- A character class of Go `regexp` syntax, as far as `awsRegionPattern` uses
it: `\w` (the ASCII letters, the ASCII digits and `_`), `\d` (the ASCII
digits), and a class of one literal character such as `[-]`. -/
inductive CharClass where
  | word
  | digit
  | lit (c : Char)
  deriving DecidableEq

/-- Whether a character belongs to a class. -/
def CharClass.accepts : CharClass → Char → Bool
  | .word, c => c.isAlphanum || c == '_'
  | .digit, c => c.isDigit
  | .lit l, c => c == l

/-- One step of a parsed pattern: `^` (beginning of the text), `$` (end of the
text, the `m` flag being off), one character of a class, or at most one
character of a class. -/
inductive RegexItem where
  | beginText
  | endText
  | one (k : CharClass)
  | opt (k : CharClass)
  deriving DecidableEq

/-- The counted repetition `[k]{min,max}` written out: `min` required
characters followed by `max - min` optional ones. -/
def repeatClass (k : CharClass) (min max : Nat) : List RegexItem :=
  List.replicate min (.one k) ++ List.replicate (max - min) (.opt k)

/-- Source constant `awsRegionPattern` (checkConfig.go:16), the pattern
`^[\w]{2}[-][\w]{4,9}[-][\d]$`, in parsed form. -/
def awsRegionPattern : List RegexItem :=
  [.beginText] ++ repeatClass .word 2 2 ++ [.one (.lit '-')] ++ repeatClass .word 4 9 ++
    [.one (.lit '-')] ++ [.one .digit] ++ [.endText]

/-- Whether the pattern matches at the current position: `s` is the rest of
the text, `atStart` tells whether the position is the beginning of the text. -/
def matchHere : List RegexItem → Bool → GoString → Bool
  | [], _, _ => true
  | .beginText :: rest, atStart, s => atStart && matchHere rest atStart s
  | .endText :: rest, atStart, s => s.isEmpty && matchHere rest atStart s
  | .one k :: rest, _, s =>
    match s with
    | [] => false
    | c :: cs => k.accepts c && matchHere rest false cs
  | .opt k :: rest, atStart, s =>
    (match s with
      | [] => false
      | c :: cs => k.accepts c && matchHere rest false cs) || matchHere rest atStart s

/-- Whether the pattern matches at the current position or at a later one. -/
def matchFrom (pattern : List RegexItem) : Bool → GoString → Bool
  | atStart, [] => matchHere pattern atStart []
  | atStart, c :: cs => matchHere pattern atStart (c :: cs) || matchFrom pattern false cs

/-- Go `regexp.MatchString pattern s`: whether `s` contains a match of the
pattern.  Its error reports a pattern that does not compile, which cannot
happen for a pattern held in parsed form. -/
def regexpMatchString (pattern : List RegexItem) (s : GoString) : Except GoError Bool :=
  .ok (matchFrom pattern true s)

/-- Source `validateAWSRegion` (checkConfig.go:106-114): the Go results
`(ok, err)`. -/
def validateAWSRegion (value : GoString) : Bool × Option GoError :=
  match regexpMatchString awsRegionPattern value with
  | .error err => (false, some (.wrap "failed to parse AWS_REGION: ".toList err))
  | .ok ok => (ok, none)

/-! ## Notions of the specification -/

/-- The follow-up request of the page loop that carries the marker of `page`. -/
def markerRequest (cfg : CheckConfig) (page : ListObjectsOutput) : AWSRequest :=
  .listObjects ⟨cfg.AWSS3BucketName, page.Marker⟩

/-- The store's side of the page loop from history `log` on, with `page` in
hand: `page` and every page of `next` but the last carry a non-empty marker,
and the request that carries it is answered with the page that follows.  After
the last page the store either is done (`stop = none`: the last page carries
no marker or an empty one) or fails the request that carries the last page's
non-empty marker with the error `e` (`stop = some e`). -/
def ServesPages (w : World) (cfg : CheckConfig) :
    List AWSRequest → ListObjectsOutput → List ListObjectsOutput → Option GoError → Prop
  | _, page, [], none => page.Marker = none ∨ page.Marker = some []
  | log, page, [], some e =>
    ∃ m, page.Marker = some m ∧ m ≠ [] ∧
      w.ListObjects log ⟨cfg.AWSS3BucketName, some m⟩ = .error e
  | log, page, q :: rest, stop =>
    ∃ m, page.Marker = some m ∧ m ≠ [] ∧
      w.ListObjects log ⟨cfg.AWSS3BucketName, some m⟩ = .ok q ∧
      ServesPages w cfg (log ++ [.listObjects ⟨cfg.AWSS3BucketName, some m⟩]) q rest stop

/-- The store's side of one listing from history `log` on: it returns the
pages `pages` one after the other, the first to the request without marker and
each later one to the request carrying the marker of the page before (all
non-empty), and then is done (`stop = none`, last marker absent or empty) or
fails the next request (`stop = some e`; with no page at all, the first
request). -/
def Listing (w : World) (cfg : CheckConfig) (log : List AWSRequest) :
    List ListObjectsOutput → Option GoError → Prop
  | [], none => False
  | [], some e => w.ListObjects log ⟨cfg.AWSS3BucketName, none⟩ = .error e
  | first :: rest, stop =>
    w.ListObjects log ⟨cfg.AWSS3BucketName, none⟩ = .ok first ∧
      ServesPages w cfg (log ++ [.listObjects ⟨cfg.AWSS3BucketName, none⟩]) first rest stop

/-- The pages whose marker is carried by a follow-up request: all but the last
when the listing ends normally, all when the request after the last fails. -/
def askedPages (pages : List ListObjectsOutput) (stop : Option GoError) :
    List ListObjectsOutput :=
  match stop with
  | none => pages.dropLast
  | some _ => pages

/-- The specification's key filter (section 4.1) on a listed object: the key
is present, contains the literal segment `/instancegroup/` and contains the
configured cluster filter.  Gives the key of an object that passes. -/
def selectedKey (cfg : CheckConfig) (object : Option S3Object) : Option GoString :=
  match object with
  | some ⟨some key⟩ =>
    if "/instancegroup/".toList <:+: key ∧ cfg.ClusterName <:+: key then some key else none
  | _ => none

/-- The request for the body of the object at `key`. -/
def bodyRequest (cfg : CheckConfig) (key : GoString) : AWSRequest :=
  .getObject ⟨key, cfg.AWSS3BucketName⟩

/-- The diagnostic the specification assigns to one record (section 4.4): none
for an absent record, the extraction error for a record whose name extraction
fails, the "could not find" message naming the original image reference when
no catalog entry matches the extracted name, and none otherwise. -/
def recordDiagnostic (images : List (Option Image)) (group : Option InstanceGroup) :
    Option GoString :=
  match group with
  | none => none
  | some g =>
    match extractInstanceGroupImageName (some g) with
    | .error err => some err.Error
    | .ok imageName =>
      if ∃ image ∈ images, imageMatchesInstanceGroup image imageName = true then none
      else some ("could not find image matching ".toList ++ g.Spec.Image)

/-- The specification's match condition on one optional field of a catalog
entry (section 4.4, step 2): the field is present and, after trimming
surrounding white space, contains the trimmed target name as a substring. -/
def FieldContains (field : Option GoString) (target : GoString) : Prop :=
  ∃ v, field = some v ∧ stringsTrimSpace target <:+: stringsTrimSpace v

/-- A text that is not empty and consists of white space only, white space
being what `strings.TrimSpace` removes. -/
def WhitespaceOnly (s : GoString) : Prop :=
  s ≠ [] ∧ ∀ c ∈ s, unicodeIsSpace c = true

/-- A catalog entry that has a name or a location. -/
def HasNameOrLocation (entry : Image) : Prop :=
  entry.Name ≠ none ∨ entry.ImageLocation ≠ none

/-- The record the specification's loader (section 4.2) obtains from a fetched
body: none when the body is empty, be it absent or of zero bytes, none when it
cannot be read or does not decode, the decoded manifest otherwise. -/
def loadedRecord (w : World) (output : Option GetObjectOutput) : Option InstanceGroup :=
  match output with
  | some ⟨some (.ok objectBytes)⟩ =>
    if objectBytes = [] then none
    else
      match w.ParseRawYaml objectBytes with
      | .ok ig => some ig
      | .error _ => none
  | _ => none

/-! ## Example stores -/

/-- A store that answers every list request with an empty page carrying the
same marker "next". -/
def stuckWorld : World where
  ListObjects := fun _ _ => .ok ⟨[], some "next".toList⟩
  GetObject := fun _ _ => .error (.errorf "NoSuchKey".toList)
  DescribeImages := fun _ _ => .ok ⟨[]⟩
  ParseRawYaml := fun body => .ok ⟨[], ⟨body⟩⟩

/-- The configuration used in the examples. -/
def sampleConfig : CheckConfig := ⟨"us-east-1".toList, "state".toList, "c1".toList⟩

/-- First page of the example listing. -/
def samplePage1 : ListObjectsOutput :=
  ⟨[some ⟨some "c1/instancegroup/a".toList⟩, some ⟨some "c1/config".toList⟩, none],
    some "p2".toList⟩

/-- Second and last page of the example listing; its marker is empty. -/
def samplePage2 : ListObjectsOutput :=
  ⟨[some ⟨some "c1/instancegroup/b".toList⟩, some ⟨some "c2/instancegroup/a".toList⟩,
      some ⟨none⟩],
    some []⟩

/-- An example store of two pages: the manifest at `c1/instancegroup/a` names
the image `kope.io/k8s-1.27`, the object at `c1/instancegroup/b` comes without
body, any other fetch fails; the catalog holds one image.  The decoder of the
example takes a non-empty body for the image reference. -/
def sampleWorld : World where
  ListObjects := fun _ input =>
    match input.Marker with
    | none => .ok samplePage1
    | some m =>
      if m = "p2".toList then .ok samplePage2 else .error (.errorf "InvalidArgument".toList)
  GetObject := fun _ input =>
    if input.Key = "c1/instancegroup/a".toList then
      .ok (some ⟨some (.ok "kope.io/k8s-1.27".toList)⟩)
    else if input.Key = "c1/instancegroup/b".toList then .ok (some ⟨none⟩)
    else .error (.errorf "NoSuchKey".toList)
  DescribeImages := fun _ _ => .ok ⟨[some ⟨some "k8s-1.27-hvm".toList, none⟩]⟩
  ParseRawYaml := fun body =>
    if body = [] then .error (.errorf "empty".toList) else .ok ⟨"nodes".toList, ⟨body⟩⟩

/-- The example store with a list request that fails after the first page. -/
def timeoutWorld : World :=
  { sampleWorld with
    ListObjects := fun _ input =>
      match input.Marker with
      | none => .ok samplePage1
      | some _ => .error (.errorf "RequestTimeout".toList) }

/-- A store whose first two list responses carry the same marker "m" and whose
third carries none. -/
def repeatWorld : World :=
  { sampleWorld with
    ListObjects := fun history _ =>
      if history.length < 2 then .ok ⟨[some ⟨some "a".toList⟩], some "m".toList⟩
      else .ok ⟨[some ⟨some "b".toList⟩], none⟩ }

/-- The example store with bodies that break off while they are read: every
`GetObject` call succeeds and `io.ReadAll` on its body fails. -/
def brokenBodyWorld : World :=
  { sampleWorld with
    GetObject := fun _ _ => .ok (some ⟨some (.error (.errorf "unexpected EOF".toList))⟩) }

/-- The example store with an object of zero bytes at `c1/instancegroup/b` and
a decoder that accepts every body, the empty one included, taking the body
for the image reference of a manifest without name. -/
def emptyBodyWorld : World :=
  { sampleWorld with
    GetObject := fun _ input =>
      if input.Key = "c1/instancegroup/a".toList then
        .ok (some ⟨some (.ok "kope.io/k8s-1.27".toList)⟩)
      else if input.Key = "c1/instancegroup/b".toList then .ok (some ⟨some (.ok [])⟩)
      else .error (.errorf "NoSuchKey".toList)
    ParseRawYaml := fun body => .ok ⟨[], ⟨body⟩⟩ }

/-! ## Facts about the string functions -/

theorem stringsHasPrefix_iff (s pre : GoString) :
    stringsHasPrefix s pre = true ↔ pre <+: s := by
  induction pre generalizing s with
  | nil => simp [stringsHasPrefix]
  | cons p ps ih =>
    cases s with
    | nil => simp [stringsHasPrefix]
    | cons c cs =>
      simp only [stringsHasPrefix, Bool.and_eq_true, beq_iff_eq, ih, List.cons_prefix_cons]
      constructor
      · rintro ⟨h, h2⟩; exact ⟨h.symm, h2⟩
      · rintro ⟨h, h2⟩; exact ⟨h.symm, h2⟩

theorem stringsContains_iff (s substr : GoString) :
    stringsContains s substr = true ↔ substr <:+: s := by
  induction s with
  | nil =>
    simp only [stringsContains, stringsHasPrefix_iff, List.prefix_nil, List.infix_nil]
  | cons c cs ih =>
    simp only [stringsContains, Bool.or_eq_true, stringsHasPrefix_iff, ih, List.infix_cons_iff]

theorem stringsSplit_ne_nil (s : GoString) (sep : Char) : stringsSplit s sep ≠ [] := by
  induction s with
  | nil => simp [stringsSplit]
  | cons c cs ih =>
    unfold stringsSplit
    split
    · simp
    · split <;> simp

theorem stringsSplit_of_not_mem (s : GoString) (sep : Char) (h : sep ∉ s) :
    stringsSplit s sep = [s] := by
  induction s with
  | nil => rfl
  | cons c cs ih =>
    have hc : c ≠ sep := fun e => h (by simp [e])
    have hcs : sep ∉ cs := fun e => h (by simp [e])
    simp [stringsSplit, hc, ih hcs]

theorem stringsSplit_append (a b : GoString) (sep : Char) (h : sep ∉ a) :
    stringsSplit (a ++ sep :: b) sep = a :: stringsSplit b sep := by
  induction a with
  | nil => simp [stringsSplit]
  | cons c cs ih =>
    have hc : c ≠ sep := fun e => h (by simp [e])
    have hcs : sep ∉ cs := fun e => h (by simp [e])
    simp [stringsSplit, hc, ih hcs]

theorem exists_segment (s : GoString) (sep : Char) :
    ∃ seg rest, s = seg ++ rest ∧ sep ∉ seg ∧ (rest = [] ∨ ∃ r, rest = sep :: r) := by
  by_cases h : sep ∈ s
  · obtain ⟨seg, r, hs, hseg⟩ := List.eq_append_cons_of_mem h
    exact ⟨seg, sep :: r, hs, hseg, Or.inr ⟨r, rfl⟩⟩
  · exact ⟨s, [], by simp, h, Or.inl rfl⟩

/-! ## Name extraction -/

/-- C1. `extractInstanceGroupImageName` on a non-nil instance group: a
reference `owner/image` or `owner/image/...` (no `/` inside `owner` and
`image`) yields exactly `image`, its second `/`-delimited segment, whatever
follows; every reference that contains a `/` is of that form; a non-empty
reference without `/` is returned unchanged; the empty reference is an error. -/
theorem extractInstanceGroupImageName_spec (name : GoString) :
    (∀ owner image rest : GoString, '/' ∉ owner → '/' ∉ image →
        (rest = [] ∨ ∃ r, rest = '/' :: r) →
        extractInstanceGroupImageName (some ⟨name, ⟨owner ++ '/' :: (image ++ rest)⟩⟩)
          = .ok image) ∧
    (∀ ref : GoString, '/' ∈ ref →
        ∃ owner image rest, ref = owner ++ '/' :: (image ++ rest) ∧ '/' ∉ owner ∧
          '/' ∉ image ∧ (rest = [] ∨ ∃ r, rest = '/' :: r) ∧
          extractInstanceGroupImageName (some ⟨name, ⟨ref⟩⟩) = .ok image) ∧
    (∀ ref : GoString, ref ≠ [] → '/' ∉ ref →
        extractInstanceGroupImageName (some ⟨name, ⟨ref⟩⟩) = .ok ref) ∧
    extractInstanceGroupImageName (some ⟨name, ⟨[]⟩⟩)
      = .error (.errorf ("instance group ".toList ++ name ++
          " does not define an image".toList)) := by
  have first : ∀ owner image rest : GoString, '/' ∉ owner → '/' ∉ image →
      (rest = [] ∨ ∃ r, rest = '/' :: r) →
      extractInstanceGroupImageName (some ⟨name, ⟨owner ++ '/' :: (image ++ rest)⟩⟩)
        = .ok image := by
    intro owner image rest ho hi hrest
    have hsplit : ∃ tl, stringsSplit (owner ++ '/' :: (image ++ rest)) '/'
        = owner :: image :: tl := by
      rw [stringsSplit_append _ _ _ ho]
      rcases hrest with rfl | ⟨r, rfl⟩
      · rw [List.append_nil, stringsSplit_of_not_mem _ _ hi]; exact ⟨[], rfl⟩
      · rw [stringsSplit_append _ _ _ hi]; exact ⟨_, rfl⟩
    obtain ⟨tl, htl⟩ := hsplit
    simp [extractInstanceGroupImageName, htl]
  refine ⟨first, ?_, ?_, ?_⟩
  · intro ref href
    obtain ⟨owner, tail, rfl, ho⟩ := List.eq_append_cons_of_mem href
    obtain ⟨image, rest, rfl, hi, hrest⟩ := exists_segment tail '/'
    exact ⟨owner, image, rest, rfl, ho, hi, hrest, first owner image rest ho hi hrest⟩
  · intro ref hne hno
    have hlen : ref.length ≠ 0 := by simpa using hne
    simp [extractInstanceGroupImageName, hlen, stringsSplit_of_not_mem _ _ hno]
  · simp [extractInstanceGroupImageName]

/-- The examples of `amiCheck_test.go` for C1, and a reference of three
segments, obtained from `extractInstanceGroupImageName_spec`. -/
theorem extractInstanceGroupImageName_spec_witness :
    extractInstanceGroupImageName (some ⟨"ig-name".toList, ⟨"kope.io/k8s-1.27".toList⟩⟩)
      = .ok "k8s-1.27".toList ∧
    extractInstanceGroupImageName (some ⟨"ig-name".toList, ⟨"a/b/c/d".toList⟩⟩)
      = .ok "b".toList ∧
    extractInstanceGroupImageName (some ⟨"ig-name".toList, ⟨"k8s-1.27".toList⟩⟩)
      = .ok "k8s-1.27".toList :=
  ⟨(extractInstanceGroupImageName_spec "ig-name".toList).1 "kope.io".toList
      "k8s-1.27".toList [] (by decide) (by decide) (Or.inl rfl),
   (extractInstanceGroupImageName_spec "ig-name".toList).1 "a".toList
      "b".toList "/c/d".toList (by decide) (by decide) (Or.inr ⟨"c/d".toList, rfl⟩),
   (extractInstanceGroupImageName_spec "ig-name".toList).2.2.1 "k8s-1.27".toList
      (by decide) (by decide)⟩

/-! ## Matching one catalog entry -/

theorem fieldMatch_iff (field : Option GoString) (target : GoString) :
    (match field with
      | some v => stringsContains (stringsTrimSpace v) (stringsTrimSpace target)
      | none => false) = true ↔ FieldContains field target := by
  cases field with
  | none => simp [FieldContains]
  | some v => simp [FieldContains, stringsContains_iff]

/-- C2, counterexample. The name of the entry, trimmed, contains the trimmed
empty target name as a substring, and `imageMatchesInstanceGroup` returns
false. -/
theorem imageMatchesInstanceGroup_empty_target :
    FieldContains (Image.mk (some "k8s-1.27".toList) none).Name [] ∧
    imageMatchesInstanceGroup (some (Image.mk (some "k8s-1.27".toList) none)) [] = false :=
  ⟨⟨"k8s-1.27".toList, rfl, List.nil_infix⟩, rfl⟩

/-- C2, amended. `imageMatchesInstanceGroup` returns true exactly when the
target name is non-empty, the catalog entry is present, and the entry's name
or its location is present and, after trimming, contains the trimmed target
name as a substring; it returns false in every other case. -/
theorem imageMatchesInstanceGroup_spec (image : Option Image) (imageName : GoString) :
    (imageMatchesInstanceGroup image imageName = true ↔
      imageName ≠ [] ∧ ∃ entry, image = some entry ∧
        (FieldContains entry.Name imageName ∨ FieldContains entry.ImageLocation imageName)) ∧
    (imageMatchesInstanceGroup image imageName = false ↔
      ¬ (imageName ≠ [] ∧ ∃ entry, image = some entry ∧
        (FieldContains entry.Name imageName ∨ FieldContains entry.ImageLocation imageName))) := by
  have key : imageMatchesInstanceGroup image imageName = true ↔
      imageName ≠ [] ∧ ∃ entry, image = some entry ∧
        (FieldContains entry.Name imageName ∨ FieldContains entry.ImageLocation imageName) := by
    cases image with
    | none => simp [imageMatchesInstanceGroup]
    | some entry =>
      by_cases hlen : imageName = []
      · simp [imageMatchesInstanceGroup, hlen]
      · have h0 : imageName.length ≠ 0 := by simpa using hlen
        have hn := fieldMatch_iff entry.Name imageName
        have hl := fieldMatch_iff entry.ImageLocation imageName
        simp only [imageMatchesInstanceGroup, h0, if_false, ne_eq, hlen, not_false_eq_true,
          true_and, Option.some.injEq, exists_eq_left']
        by_cases h1 : FieldContains entry.Name imageName
        · simp [hn.2 h1, h1]
        · have h1f : ¬ ((match entry.Name with
              | some v => stringsContains (stringsTrimSpace v) (stringsTrimSpace imageName)
              | none => false) = true) := fun h => h1 (hn.1 h)
          by_cases h2 : FieldContains entry.ImageLocation imageName
          · simp [h1f, hl.2 h2, h2]
          · have h2f : ¬ ((match entry.ImageLocation with
                | some v => stringsContains (stringsTrimSpace v) (stringsTrimSpace imageName)
                | none => false) = true) := fun h => h2 (hl.1 h)
            simp [h1f, h2f, h1, h2]
  refine ⟨key, ?_⟩
  rw [← key]
  simp

/-- The examples of `amiCheck_test.go` for C2 (a match by name, a match by
location) and a non-match, obtained from `imageMatchesInstanceGroup_spec`. -/
theorem imageMatchesInstanceGroup_spec_witness :
    imageMatchesInstanceGroup (some ⟨some "k8s-1.27".toList, none⟩) "k8s-1.27".toList = true ∧
    imageMatchesInstanceGroup (some ⟨none, some "kope.io/k8s-1.27".toList⟩) "k8s-1.27".toList
      = true ∧
    imageMatchesInstanceGroup (some ⟨none, none⟩) "k8s-1.27".toList = false :=
  ⟨(imageMatchesInstanceGroup_spec _ _).1.2
      ⟨by decide, _, rfl, Or.inl ⟨_, rfl, List.infix_refl _⟩⟩,
   (imageMatchesInstanceGroup_spec _ _).1.2
      ⟨by decide, _, rfl, Or.inr ⟨_, rfl, "kope.io/".toList, [], rfl⟩⟩,
   (imageMatchesInstanceGroup_spec _ _).2.2
      (fun h => h.2.elim fun _ he => he.2.elim
        (fun hn => hn.elim fun _ hv => Option.noConfusion (Option.some.inj he.1 ▸ hv.1))
        (fun hl => hl.elim fun _ hv => Option.noConfusion (Option.some.inj he.1 ▸ hv.1)))⟩

/-- C10. A nil catalog entry never matches, whatever the target name. -/
theorem imageMatchesInstanceGroup_nil (imageName : GoString) :
    imageMatchesInstanceGroup none imageName = false := rfl

/-! ## The match pass -/

theorem findImage_iff (images : List (Option Image)) (imageName : GoString) :
    findImage images imageName = true ↔
      ∃ image ∈ images, imageMatchesInstanceGroup image imageName = true := by
  induction images with
  | nil => simp [findImage]
  | cons image rest ih =>
    by_cases h : imageMatchesInstanceGroup image imageName = true
    · simp [findImage, h]
    · simp [findImage, h, ih]

theorem checkGroup_eq (images : List (Option Image)) (errorMessages : List GoString)
    (group : Option InstanceGroup) :
    checkGroup images errorMessages group
      = errorMessages ++ (recordDiagnostic images group).toList := by
  cases group with
  | none => simp [checkGroup, recordDiagnostic]
  | some g =>
    simp only [checkGroup, recordDiagnostic]
    cases extractInstanceGroupImageName (some g) with
    | error err => simp
    | ok imageName =>
      by_cases h : findImage images imageName = true
      · have h2 := (findImage_iff images imageName).1 h
        simp [h, h2]
      · have h2 : ¬ ∃ image ∈ images, imageMatchesInstanceGroup image imageName = true :=
          fun e => h ((findImage_iff images imageName).2 e)
        simp [h, h2]

theorem foldl_checkGroup (images : List (Option Image)) (groups : List (Option InstanceGroup))
    (errorMessages : List GoString) :
    groups.foldl (checkGroup images) errorMessages
      = errorMessages ++ groups.filterMap (recordDiagnostic images) := by
  induction groups generalizing errorMessages with
  | nil => simp
  | cons g rest ih =>
    rw [List.foldl_cons, ih, checkGroup_eq, List.filterMap_cons]
    cases recordDiagnostic images g <;> simp

/-- C3. The list returned by `checkImagesAreAvailable` is, in record order,
the diagnostics of the records that have one: no entry for a nil record, the
extraction error for a record whose name extraction fails, "could not find
image matching " followed by the record's original image reference when no
catalog entry matches the extracted name, no entry otherwise.  Records are
handled independently: the result for a concatenation of record lists is the
concatenation of the results. -/
theorem checkImagesAreAvailable_spec (instanceGroups : List (Option InstanceGroup))
    (images : List (Option Image)) :
    checkImagesAreAvailable instanceGroups images
      = instanceGroups.filterMap (recordDiagnostic images) ∧
    (∀ before after : List (Option InstanceGroup),
      checkImagesAreAvailable (before ++ after) images
        = checkImagesAreAvailable before images ++ checkImagesAreAvailable after images) := by
  have h : ∀ gs, checkImagesAreAvailable gs images
      = gs.filterMap (recordDiagnostic images) := by
    intro gs
    simp [checkImagesAreAvailable, foldl_checkGroup]
  exact ⟨h _, fun before after => by simp [h]⟩

/-- The scenario of the specification (section 8) and an empty reference,
through `checkImagesAreAvailable_spec`: the unmatched record is named by its
original reference, the nil record and the matching record give nothing. -/
theorem checkImagesAreAvailable_spec_witness :
    checkImagesAreAvailable
        [some ⟨"ig1".toList, ⟨"missing/image/x".toList⟩⟩, none, some ⟨"ig2".toList, ⟨[]⟩⟩,
          some ⟨"ig3".toList, ⟨"kope.io/k8s-1.27".toList⟩⟩]
        [some ⟨some "other".toList, none⟩, none, some ⟨some "k8s-1.27-hvm".toList, none⟩]
      = ["could not find image matching missing/image/x".toList,
          "instance group ig2 does not define an image".toList] :=
  (checkImagesAreAvailable_spec _ _).1.trans (by decide)

/-! ## The verdict of a run -/

theorem stringsJoin_eq_intercalate (elems : List GoString) (sep : GoString) :
    stringsJoin elems sep = List.intercalate sep elems := by
  induction elems with
  | nil => rfl
  | cons e rest ih =>
    cases rest with
    | nil => simp [stringsJoin, List.intercalate]
    | cons f rest =>
      rw [stringsJoin, ih]
      simp [List.intercalate, List.intersperse]

/-- C4. When the inventory listing and the catalog fetch both succeed,
`runCheck` returns nil exactly when `checkImagesAreAvailable` returns no
diagnostic, and otherwise returns one error whose message is the diagnostics,
in order, joined with "; ". -/
theorem runCheck_verdict (fuel : Nat) (cfg : CheckConfig) (w : World)
    (log log1 log2 : List AWSRequest) (instanceGroups : List (Option InstanceGroup))
    (images : List (Option Image))
    (hlist : listKopsInstanceGroups fuel cfg w log = some (log1, some instanceGroups, none))
    (himages : listEC2Images cfg w log1 = (log2, some images, none)) :
    (runCheck fuel cfg w log = some (log2, none) ↔
      checkImagesAreAvailable instanceGroups images = []) ∧
    (checkImagesAreAvailable instanceGroups images ≠ [] →
      runCheck fuel cfg w log = some (log2, some (.errorf
        (List.intercalate "; ".toList (checkImagesAreAvailable instanceGroups images))))) := by
  by_cases h : checkImagesAreAvailable instanceGroups images = []
  · simp [runCheck, hlist, himages, h]
  · simp [runCheck, hlist, himages, h, stringsJoin_eq_intercalate]

/-! ## Pagination -/

theorem askedPages_cons_cons (page q : ListObjectsOutput) (rest : List ListObjectsOutput)
    (stop : Option GoError) :
    askedPages (page :: q :: rest) stop = page :: askedPages (q :: rest) stop := by
  cases stop <;> simp [askedPages]

theorem pageLoop_serves (cfg : CheckConfig) (w : World) (rest : List ListObjectsOutput) :
    ∀ (fuel : Nat) (log : List AWSRequest) (page : ListObjectsOutput)
      (results : List (Option S3Object)) (stop : Option GoError),
      ServesPages w cfg log page rest stop → rest.length < fuel →
      pageLoop cfg w fuel log page results
        = some (log ++ (askedPages (page :: rest) stop).map (markerRequest cfg),
            results ++ rest.flatMap (fun p => p.Contents), stop) := by
  induction rest with
  | nil =>
    intro fuel log page results stop hs hfuel
    obtain ⟨f, rfl⟩ : ∃ f, fuel = f + 1 := ⟨fuel - 1, by simp at hfuel; omega⟩
    cases stop with
    | none =>
      rcases hs with h | h
      · simp [pageLoop, h, askedPages]
      · simp [pageLoop, h, askedPages]
    | some e =>
      obtain ⟨m, hm, hne, hreq⟩ := hs
      have hlen : m.length ≠ 0 := by simpa using hne
      simp [pageLoop, hm, hlen, hreq, askedPages, markerRequest]
  | cons q rest ih =>
    intro fuel log page results stop hs hfuel
    obtain ⟨f, rfl⟩ : ∃ f, fuel = f + 1 := ⟨fuel - 1, by simp at hfuel; omega⟩
    obtain ⟨m, hm, hne, hreq, hrest⟩ := hs
    have hlen : m.length ≠ 0 := by simpa using hne
    have hf : rest.length < f := by simp at hfuel; omega
    simp only [pageLoop, hm, hlen, if_false, hreq]
    rw [ih f _ q _ stop hrest hf, askedPages_cons_cons]
    simp [markerRequest, hm]

theorem listS3Objects_listing (cfg : CheckConfig) (w : World) (log : List AWSRequest)
    (pages : List ListObjectsOutput) (stop : Option GoError) (fuel : Nat)
    (hl : Listing w cfg log pages stop) (hfuel : pages.length ≤ fuel) :
    listS3Objects fuel cfg w log
      = some (log ++ .listObjects ⟨cfg.AWSS3BucketName, none⟩
            :: (askedPages pages stop).map (markerRequest cfg),
          pages.flatMap (fun p => p.Contents), stop) := by
  cases pages with
  | nil =>
    cases stop with
    | none => exact absurd hl (by simp [Listing])
    | some e =>
      have h : w.ListObjects log ⟨cfg.AWSS3BucketName, none⟩ = .error e := hl
      simp [listS3Objects, h, askedPages]
  | cons first rest =>
    obtain ⟨hfirst, hrest⟩ := hl
    have hf : rest.length < fuel := by simp at hfuel; omega
    simp only [listS3Objects, hfirst]
    rw [pageLoop_serves cfg w rest fuel _ first _ stop hrest hf]
    simp

theorem pageLoop_stuck (cfg : CheckConfig) (w : World) (m : GoString) (hm : m ≠ [])
    (hw : ∀ history input, ∃ contents, w.ListObjects history input = .ok ⟨contents, some m⟩) :
    ∀ (fuel : Nat) (log : List AWSRequest) (page : ListObjectsOutput)
      (results : List (Option S3Object)), page.Marker = some m →
      pageLoop cfg w fuel log page results = none := by
  have hlen : m.length ≠ 0 := by simpa using hm
  intro fuel
  induction fuel with
  | zero => intro log page results _; rfl
  | succ f ih =>
    intro log page results hp
    obtain ⟨contents, hc⟩ := hw log ⟨cfg.AWSS3BucketName, some m⟩
    simp only [pageLoop, hp, hlen, if_false, hc]
    exact ih _ _ _ rfl

theorem listS3Objects_stuck (cfg : CheckConfig) (w : World) (m : GoString) (hm : m ≠ [])
    (hw : ∀ history input, ∃ contents, w.ListObjects history input = .ok ⟨contents, some m⟩)
    (fuel : Nat) (log : List AWSRequest) :
    listS3Objects fuel cfg w log = none := by
  obtain ⟨contents, hc⟩ := hw log ⟨cfg.AWSS3BucketName, none⟩
  simp only [listS3Objects, hc]
  exact pageLoop_stuck cfg w m hm hw _ _ _ _ rfl

/-- C5. When the store returns the pages `pages` one after the other, every
page but the last with a non-empty marker and the last with no marker or an
empty one, `listS3Objects` (given fuel for one loop test per page) returns the
concatenation of the pages' items in page order and no error, having sent
exactly one request per page: the first without marker, each later one with
the marker of the page before, and none after the last page. -/
theorem listS3Objects_pagination (cfg : CheckConfig) (w : World) (log : List AWSRequest)
    (pages : List ListObjectsOutput) (fuel : Nat)
    (hserved : Listing w cfg log pages none) (hfuel : pages.length ≤ fuel) :
    listS3Objects fuel cfg w log
      = some (log ++ .listObjects ⟨cfg.AWSS3BucketName, none⟩
            :: pages.dropLast.map (fun p => .listObjects ⟨cfg.AWSS3BucketName, p.Marker⟩),
          pages.flatMap (fun p => p.Contents), none) ∧
    (AWSRequest.listObjects ⟨cfg.AWSS3BucketName, none⟩
        :: pages.dropLast.map (fun p => .listObjects ⟨cfg.AWSS3BucketName, p.Marker⟩)).length
      = pages.length := by
  refine ⟨listS3Objects_listing cfg w log pages none fuel hserved hfuel, ?_⟩
  cases pages with
  | nil => exact absurd hserved (by simp [Listing])
  | cons first rest => simp

/-! ## Reading the manifests -/

theorem selectedKey_eq_some (cfg : CheckConfig) (object : Option S3Object) (key : GoString)
    (h : selectedKey cfg object = some key) :
    object = some ⟨some key⟩ ∧ stringsContains key kopsStateStoreInstanceGroupKey = true ∧
      stringsContains key cfg.ClusterName = true := by
  rcases object with _ | ⟨_ | k⟩
  · simp [selectedKey] at h
  · simp [selectedKey] at h
  · simp only [selectedKey] at h
    split at h
    · rename_i hk
      cases h
      exact ⟨rfl, (stringsContains_iff _ _).2 hk.1, (stringsContains_iff _ _).2 hk.2⟩
    · cases h

theorem readLoop_excluded (cfg : CheckConfig) (w : World) (object : Option S3Object)
    (rest : List (Option S3Object)) (log : List AWSRequest)
    (results : List (Option InstanceGroup)) (h : selectedKey cfg object = none) :
    readLoop cfg w (object :: rest) log results = readLoop cfg w rest log results := by
  rcases object with _ | ⟨_ | key⟩
  · simp [readLoop]
  · simp [readLoop]
  · simp only [selectedKey] at h
    split at h
    · cases h
    · rename_i hk
      by_cases h1 : stringsContains key kopsStateStoreInstanceGroupKey = true
      · have h2 : ¬ stringsContains key cfg.ClusterName = true := fun h2 =>
          hk ⟨(stringsContains_iff _ _).1 h1, (stringsContains_iff _ _).1 h2⟩
        simp [readLoop, h1, h2]
      · simp [readLoop, h1]

theorem readLoop_selected (cfg : CheckConfig) (w : World) (object : Option S3Object)
    (key : GoString) (rest : List (Option S3Object)) (log : List AWSRequest)
    (results : List (Option InstanceGroup)) (h : selectedKey cfg object = some key) :
    readLoop cfg w (object :: rest) log results
      = match w.GetObject log ⟨key, cfg.AWSS3BucketName⟩ with
        | .error err => (log ++ [bodyRequest cfg key], results, some err)
        | .ok output =>
          readLoop cfg w rest (log ++ [bodyRequest cfg key])
            (results ++ (decodedRecord w output).toList.map some) := by
  obtain ⟨rfl, h1, h2⟩ := selectedKey_eq_some cfg object key h
  simp only [readLoop, h1, h2, Bool.not_true, Bool.false_eq_true, if_false, bodyRequest]
  cases w.GetObject log ⟨key, cfg.AWSS3BucketName⟩ with
  | error err => rfl
  | ok output =>
    rcases output with _ | ⟨_ | ⟨e | bytes⟩⟩
    · simp [decodedRecord]
    · simp [decodedRecord]
    · simp [decodedRecord]
    · simp only [decodedRecord]
      cases w.ParseRawYaml bytes <;> simp

theorem readLoop_filter (cfg : CheckConfig) (w : World) (objects : List (Option S3Object)) :
    ∀ (log : List AWSRequest) (results : List (Option InstanceGroup)),
      readLoop cfg w objects log results
        = readLoop cfg w (objects.filter fun o => (selectedKey cfg o).isSome) log results := by
  induction objects with
  | nil => intro log results; rfl
  | cons object rest ih =>
    intro log results
    cases hsel : selectedKey cfg object with
    | none =>
      rw [readLoop_excluded cfg w object rest log results hsel, ih]
      simp [List.filter, hsel]
    | some key =>
      have hf : (object :: rest).filter (fun o => (selectedKey cfg o).isSome)
          = object :: rest.filter (fun o => (selectedKey cfg o).isSome) := by
        simp [List.filter, hsel]
      rw [hf, readLoop_selected cfg w object key _ log results hsel,
        readLoop_selected cfg w object key _ log results hsel]
      cases w.GetObject log ⟨key, cfg.AWSS3BucketName⟩ with
      | error err => rfl
      | ok output => exact ih _ _

theorem readLoop_requests (cfg : CheckConfig) (w : World) (objects : List (Option S3Object)) :
    ∀ (log : List AWSRequest) (results : List (Option InstanceGroup)),
      (∃ n, (readLoop cfg w objects log results).1
          = log ++ ((objects.filterMap (selectedKey cfg)).take n).map (bodyRequest cfg)) ∧
      ((readLoop cfg w objects log results).2.2 = none →
        (readLoop cfg w objects log results).1
          = log ++ (objects.filterMap (selectedKey cfg)).map (bodyRequest cfg)) := by
  induction objects with
  | nil => intro log results; exact ⟨⟨0, by simp [readLoop]⟩, fun _ => by simp [readLoop]⟩
  | cons object rest ih =>
    intro log results
    cases hsel : selectedKey cfg object with
    | none =>
      rw [readLoop_excluded cfg w object rest log results hsel, List.filterMap_cons, hsel]
      exact ih log results
    | some key =>
      rw [readLoop_selected cfg w object key _ log results hsel, List.filterMap_cons, hsel]
      cases w.GetObject log ⟨key, cfg.AWSS3BucketName⟩ with
      | error err => exact ⟨⟨1, by simp⟩, fun h => by simp at h⟩
      | ok output =>
        obtain ⟨⟨n, hn⟩, hall⟩ := ih (log ++ [bodyRequest cfg key])
          (results ++ (decodedRecord w output).toList.map some)
        refine ⟨⟨n + 1, ?_⟩, fun h => ?_⟩
        · simp only [hn]; simp
        · simp only [hall h]; simp

/-- C7. `readInstanceGroupObjects` requests the body of a listed object exactly
when its key is present, contains `/instancegroup/` and contains the cluster
filter: run on one object it sends that one request or none; an object
without key, a key without the segment (whatever the cluster filter) and a key
without the cluster substring leave the history, the records and the error
untouched; dropping all excluded objects from the listing changes nothing in
the outcome; and the requests of a run are the requests for the selected keys
in listing order, all of them when no fetch fails (up to the failing one
otherwise). -/
theorem readInstanceGroupObjects_filter (cfg : CheckConfig) (w : World)
    (log : List AWSRequest) :
    (∀ object : Option S3Object,
      (readInstanceGroupObjects cfg w log [object]).1
        = log ++ ((selectedKey cfg object).map (bodyRequest cfg)).toList) ∧
    (∀ key : GoString, "/instancegroup/".toList <:+: key → cfg.ClusterName <:+: key →
      (readInstanceGroupObjects cfg w log [some ⟨some key⟩]).1
        = log ++ [.getObject ⟨key, cfg.AWSS3BucketName⟩]) ∧
    readInstanceGroupObjects cfg w log [none] = (log, [], none) ∧
    readInstanceGroupObjects cfg w log [some ⟨none⟩] = (log, [], none) ∧
    (∀ key : GoString, ¬ "/instancegroup/".toList <:+: key →
      readInstanceGroupObjects cfg w log [some ⟨some key⟩] = (log, [], none)) ∧
    (∀ key : GoString, ¬ cfg.ClusterName <:+: key →
      readInstanceGroupObjects cfg w log [some ⟨some key⟩] = (log, [], none)) ∧
    (∀ objects : List (Option S3Object),
      readInstanceGroupObjects cfg w log objects
        = readInstanceGroupObjects cfg w log
            (objects.filter fun o => (selectedKey cfg o).isSome)) ∧
    (∀ objects : List (Option S3Object),
      (∃ n, (readInstanceGroupObjects cfg w log objects).1
          = log ++ ((objects.filterMap (selectedKey cfg)).take n).map (bodyRequest cfg)) ∧
      ((readInstanceGroupObjects cfg w log objects).2.2 = none →
        (readInstanceGroupObjects cfg w log objects).1
          = log ++ (objects.filterMap (selectedKey cfg)).map (bodyRequest cfg))) := by
  have hex : ∀ object, selectedKey cfg object = none →
      readInstanceGroupObjects cfg w log [object] = (log, [], none) := by
    intro object h
    rw [readInstanceGroupObjects, readLoop_excluded cfg w object [] log [] h]
    rfl
  have hone : ∀ object : Option S3Object,
      (readInstanceGroupObjects cfg w log [object]).1
        = log ++ ((selectedKey cfg object).map (bodyRequest cfg)).toList := by
    intro object
    cases hsel : selectedKey cfg object with
    | none => simp [hex object hsel]
    | some key =>
      simp only [readInstanceGroupObjects, readLoop_selected cfg w object key [] log [] hsel]
      cases w.GetObject log ⟨key, cfg.AWSS3BucketName⟩ <;> simp [readLoop]
  refine ⟨hone, ?_, hex _ rfl, hex _ rfl, ?_, ?_, ?_, ?_⟩
  · intro key h1 h2
    have hsel : selectedKey cfg (some ⟨some key⟩) = some key := by
      simp only [selectedKey]
      exact if_pos ⟨h1, h2⟩
    rw [hone, hsel]
    rfl
  · intro key h
    exact hex _ (by simp only [selectedKey]; exact if_neg fun hk => h hk.1)
  · intro key h
    exact hex _ (by simp only [selectedKey]; exact if_neg fun hk => h hk.2)
  · intro objects
    exact readLoop_filter cfg w objects log []
  · intro objects
    exact readLoop_requests cfg w objects log []

theorem readLoop_results (cfg : CheckConfig) (w : World) (objects : List (Option S3Object)) :
    ∀ (log : List AWSRequest) (results : List (Option InstanceGroup)),
      readLoop cfg w objects log results
        = ((readLoop cfg w objects log []).1, results ++ (readLoop cfg w objects log []).2.1,
            (readLoop cfg w objects log []).2.2) := by
  induction objects with
  | nil => intro log results; simp [readLoop]
  | cons object rest ih =>
    intro log results
    cases hsel : selectedKey cfg object with
    | none =>
      rw [readLoop_excluded cfg w object rest log results hsel,
        readLoop_excluded cfg w object rest log [] hsel]
      exact ih log results
    | some key =>
      rw [readLoop_selected cfg w object key rest log results hsel,
        readLoop_selected cfg w object key rest log [] hsel]
      cases w.GetObject log ⟨key, cfg.AWSS3BucketName⟩ with
      | error err => simp
      | ok output =>
        simp only []
        rw [ih _ (results ++ (decodedRecord w output).toList.map some),
          ih _ ([] ++ (decodedRecord w output).toList.map some)]
        simp

theorem readLoop_append (cfg : CheckConfig) (w : World) (before after : List (Option S3Object)) :
    ∀ (log log1 : List AWSRequest) (results results1 : List (Option InstanceGroup)),
      readLoop cfg w before log results = (log1, results1, none) →
      readLoop cfg w (before ++ after) log results = readLoop cfg w after log1 results1 := by
  induction before with
  | nil =>
    intro log log1 results results1 h
    simp only [readLoop, Prod.mk.injEq, and_true] at h
    obtain ⟨rfl, rfl⟩ := h
    rfl
  | cons object rest ih =>
    intro log log1 results results1 h
    rw [List.cons_append]
    cases hsel : selectedKey cfg object with
    | none =>
      rw [readLoop_excluded cfg w object _ log results hsel] at h ⊢
      exact ih _ _ _ _ h
    | some key =>
      rw [readLoop_selected cfg w object key _ log results hsel] at h ⊢
      cases hget : w.GetObject log ⟨key, cfg.AWSS3BucketName⟩ with
      | error err => simp [hget] at h
      | ok output =>
        simp only [hget] at h ⊢
        exact ih _ _ _ _ h

theorem readInstanceGroupObjects_step (cfg : CheckConfig) (w : World)
    (log log1 : List AWSRequest) (before after : List (Option S3Object))
    (object : Option S3Object) (key : GoString) (records : List (Option InstanceGroup))
    (hbefore : readInstanceGroupObjects cfg w log before = (log1, records, none))
    (hsel : selectedKey cfg object = some key) :
    readInstanceGroupObjects cfg w log (before ++ object :: after)
      = match w.GetObject log1 ⟨key, cfg.AWSS3BucketName⟩ with
        | .error err => (log1 ++ [bodyRequest cfg key], records, some err)
        | .ok output =>
          ((readInstanceGroupObjects cfg w (log1 ++ [bodyRequest cfg key]) after).1,
            records ++ (decodedRecord w output).toList.map some ++
              (readInstanceGroupObjects cfg w (log1 ++ [bodyRequest cfg key]) after).2.1,
            (readInstanceGroupObjects cfg w (log1 ++ [bodyRequest cfg key]) after).2.2) := by
  unfold readInstanceGroupObjects at hbefore ⊢
  rw [readLoop_append cfg w before (object :: after) log log1 [] records hbefore,
    readLoop_selected cfg w object key after log1 records hsel]
  cases w.GetObject log1 ⟨key, cfg.AWSS3BucketName⟩ with
  | error err => rfl
  | ok output =>
    simp only []
    rw [readLoop_results]

/-! ## Repeated markers, transport failures, skipped manifests -/

/-- C6, counterexample. `stuckWorld` returns the same non-empty marker on the
first two list responses (and on every later one), and `listS3Objects` returns
nothing, neither a result nor an error, however much fuel it is given. -/
theorem listS3Objects_repeated_marker_never_returns :
    stuckWorld.ListObjects [] ⟨sampleConfig.AWSS3BucketName, none⟩
      = .ok ⟨[], some "next".toList⟩ ∧
    stuckWorld.ListObjects [.listObjects ⟨sampleConfig.AWSS3BucketName, none⟩]
        ⟨sampleConfig.AWSS3BucketName, some "next".toList⟩
      = .ok ⟨[], some "next".toList⟩ ∧
    ¬ ∃ fuel, listS3Objects fuel sampleConfig stuckWorld [] ≠ none :=
  ⟨rfl, rfl, fun ⟨fuel, h⟩ =>
    h (listS3Objects_stuck sampleConfig stuckWorld "next".toList (by decide)
      (fun _ _ => ⟨[], rfl⟩) fuel [])⟩

/-- C6, amended. A non-empty marker equal to the one of the response before is
followed like any other: when the first two responses carry the same non-empty
marker `m` and the third carries no marker or an empty one, `listS3Objects`
sends the request with `m` twice and returns the items of all three pages
without error; and against a store that answers every request with the same
non-empty marker it never returns. -/
theorem listS3Objects_repeated_marker :
    (∀ (cfg : CheckConfig) (w : World) (log : List AWSRequest)
        (first second last : ListObjectsOutput) (m : GoString) (fuel : Nat),
      m ≠ [] →
      w.ListObjects log ⟨cfg.AWSS3BucketName, none⟩ = .ok first → first.Marker = some m →
      w.ListObjects (log ++ [.listObjects ⟨cfg.AWSS3BucketName, none⟩])
          ⟨cfg.AWSS3BucketName, some m⟩ = .ok second →
      second.Marker = some m →
      w.ListObjects (log ++ [.listObjects ⟨cfg.AWSS3BucketName, none⟩,
          .listObjects ⟨cfg.AWSS3BucketName, some m⟩])
          ⟨cfg.AWSS3BucketName, some m⟩ = .ok last →
      (last.Marker = none ∨ last.Marker = some []) → 3 ≤ fuel →
      listS3Objects fuel cfg w log
        = some (log ++ [.listObjects ⟨cfg.AWSS3BucketName, none⟩,
              .listObjects ⟨cfg.AWSS3BucketName, some m⟩,
              .listObjects ⟨cfg.AWSS3BucketName, some m⟩],
            first.Contents ++ second.Contents ++ last.Contents, none)) ∧
    (∀ (cfg : CheckConfig) (w : World) (m : GoString), m ≠ [] →
      (∀ history input, ∃ contents,
        w.ListObjects history input = .ok ⟨contents, some m⟩) →
      ∀ (fuel : Nat) (log : List AWSRequest), listS3Objects fuel cfg w log = none) := by
  refine ⟨?_, fun cfg w m hm hw fuel log => listS3Objects_stuck cfg w m hm hw fuel log⟩
  intro cfg w log first second last m fuel hm h1 hm1 h2 hm2 h3 hm3 hfuel
  have hl : Listing w cfg log [first, second, last] none := by
    refine ⟨h1, m, hm1, hm, h2, m, hm2, hm, ?_, hm3⟩
    simpa using h3
  rw [listS3Objects_listing cfg w log _ none fuel hl (by simpa using hfuel)]
  simp [askedPages, markerRequest, hm1, hm2]

/-- C8, counterexample. At `brokenBodyWorld` the fetch of the body of the
selected key `c1/instancegroup/a` fails while the body is read, and yet
`listKopsInstanceGroups` returns no error (and an empty record collection),
the catalog is requested, and `runCheck` reports success. -/
theorem body_read_failure_is_not_fatal :
    selectedKey sampleConfig (some ⟨some "c1/instancegroup/a".toList⟩)
      = some "c1/instancegroup/a".toList ∧
    brokenBodyWorld.GetObject
        [.listObjects ⟨"state".toList, none⟩,
          .listObjects ⟨"state".toList, some "p2".toList⟩]
        ⟨"c1/instancegroup/a".toList, "state".toList⟩
      = .ok (some ⟨some (.error (.errorf "unexpected EOF".toList))⟩) ∧
    listKopsInstanceGroups 2 sampleConfig brokenBodyWorld []
      = some ([.listObjects ⟨"state".toList, none⟩,
            .listObjects ⟨"state".toList, some "p2".toList⟩,
            .getObject ⟨"c1/instancegroup/a".toList, "state".toList⟩,
            .getObject ⟨"c1/instancegroup/b".toList, "state".toList⟩],
          some [], none) ∧
    runCheck 2 sampleConfig brokenBodyWorld []
      = some ([.listObjects ⟨"state".toList, none⟩,
            .listObjects ⟨"state".toList, some "p2".toList⟩,
            .getObject ⟨"c1/instancegroup/a".toList, "state".toList⟩,
            .getObject ⟨"c1/instancegroup/b".toList, "state".toList⟩,
            .describeImages ⟨[wellKnownAccountKopeio, wellKnownAccountRedhat,
              wellKnownAccountCoreOS, wellKnownAccountAmazonLinux2]⟩],
          none) :=
  ⟨by decide, rfl, rfl, rfl⟩

/-- C8, amended. Failed requests are fatal.  When a list request fails with
`e` (the first one, or the one after some pages served) `listS3Objects` stops
there, `listKopsInstanceGroups` returns `e` and no records, and `runCheck`
returns `e` wrapped, its message being "failed to list kops instance groups: "
followed by the message of `e`; the failed request is the last one sent, so no
image is listed and no match is attempted.  The same holds when, after a
successful listing, the `GetObject` request for a selected key fails with `e`,
whatever the records read before it.  A failure while the body of an answered
`GetObject` request is read is not fatal: the key adds no record and no error,
and the objects after it are processed as they are without it. -/
theorem transport_failure_is_fatal :
    (∀ (cfg : CheckConfig) (w : World) (log : List AWSRequest)
        (pages : List ListObjectsOutput) (e : GoError) (fuel : Nat),
      Listing w cfg log pages (some e) → pages.length ≤ fuel →
      listKopsInstanceGroups fuel cfg w log
        = some (log ++ .listObjects ⟨cfg.AWSS3BucketName, none⟩
            :: pages.map (markerRequest cfg), none, some e) ∧
      runCheck fuel cfg w log
        = some (log ++ .listObjects ⟨cfg.AWSS3BucketName, none⟩
            :: pages.map (markerRequest cfg),
          some (.wrap "failed to list kops instance groups: ".toList e)) ∧
      (GoError.wrap "failed to list kops instance groups: ".toList e).Error
        = "failed to list kops instance groups: ".toList ++ e.Error) ∧
    (∀ (cfg : CheckConfig) (w : World) (log log0 log1 : List AWSRequest)
        (before after : List (Option S3Object)) (object : Option S3Object) (key : GoString)
        (records : List (Option InstanceGroup)) (e : GoError) (fuel : Nat),
      listS3Objects fuel cfg w log = some (log0, before ++ object :: after, none) →
      readInstanceGroupObjects cfg w log0 before = (log1, records, none) →
      selectedKey cfg object = some key →
      w.GetObject log1 ⟨key, cfg.AWSS3BucketName⟩ = .error e →
      listKopsInstanceGroups fuel cfg w log
        = some (log1 ++ [bodyRequest cfg key], none, some e) ∧
      runCheck fuel cfg w log
        = some (log1 ++ [bodyRequest cfg key],
          some (.wrap "failed to list kops instance groups: ".toList e)) ∧
      (GoError.wrap "failed to list kops instance groups: ".toList e).Error
        = "failed to list kops instance groups: ".toList ++ e.Error) ∧
    (∀ (cfg : CheckConfig) (w : World) (log log1 : List AWSRequest)
        (before after : List (Option S3Object)) (object : Option S3Object) (key : GoString)
        (records : List (Option InstanceGroup)) (e : GoError),
      readInstanceGroupObjects cfg w log before = (log1, records, none) →
      selectedKey cfg object = some key →
      w.GetObject log1 ⟨key, cfg.AWSS3BucketName⟩ = .ok (some ⟨some (.error e)⟩) →
      readInstanceGroupObjects cfg w log (before ++ object :: after)
        = ((readInstanceGroupObjects cfg w (log1 ++ [bodyRequest cfg key]) after).1,
            records ++ (readInstanceGroupObjects cfg w (log1 ++ [bodyRequest cfg key]) after).2.1,
            (readInstanceGroupObjects cfg w (log1 ++ [bodyRequest cfg key]) after).2.2)) := by
  refine ⟨?_, ?_, ?_⟩
  · intro cfg w log pages e fuel hl hfuel
    have h := listS3Objects_listing cfg w log pages (some e) fuel hl hfuel
    simp only [askedPages] at h
    have hk : listKopsInstanceGroups fuel cfg w log
        = some (log ++ .listObjects ⟨cfg.AWSS3BucketName, none⟩
            :: pages.map (markerRequest cfg), none, some e) := by
      simp [listKopsInstanceGroups, h]
    exact ⟨hk, by simp [runCheck, hk], rfl⟩
  · intro cfg w log log0 log1 before after object key records e fuel hlist hbefore hsel hget
    have hread := readInstanceGroupObjects_step cfg w log0 log1 before after object key
      records hbefore hsel
    simp only [hget] at hread
    have hk : listKopsInstanceGroups fuel cfg w log
        = some (log1 ++ [bodyRequest cfg key], none, some e) := by
      simp [listKopsInstanceGroups, hlist, hread]
    exact ⟨hk, by simp [runCheck, hk], rfl⟩
  · intro cfg w log log1 before after object key records e hbefore hsel hget
    have hread := readInstanceGroupObjects_step cfg w log log1 before after object key
      records hbefore hsel
    simp only [hget] at hread
    rw [hread]
    simp [decodedRecord]

theorem decodedRecord_eq_none_iff (w : World) (output : Option GetObjectOutput) :
    decodedRecord w output = none ↔
      (output = none ∨ output = some ⟨none⟩ ∨ (∃ e, output = some ⟨some (.error e)⟩) ∨
        ∃ objectBytes e, output = some ⟨some (.ok objectBytes)⟩ ∧
          w.ParseRawYaml objectBytes = .error e) := by
  rcases output with _ | ⟨_ | ⟨e | bytes⟩⟩
  · simp [decodedRecord]
  · simp [decodedRecord]
  · simp [decodedRecord]
  · simp only [decodedRecord]
    cases h : w.ParseRawYaml bytes <;> simp [h]

theorem decodedRecord_eq_some_iff (w : World) (output : Option GetObjectOutput)
    (ig : InstanceGroup) :
    decodedRecord w output = some ig ↔
      ∃ objectBytes, output = some ⟨some (.ok objectBytes)⟩ ∧
        w.ParseRawYaml objectBytes = .ok ig := by
  rcases output with _ | ⟨_ | ⟨e | bytes⟩⟩
  · simp [decodedRecord]
  · simp [decodedRecord]
  · simp [decodedRecord]
  · simp only [decodedRecord]
    cases h : w.ParseRawYaml bytes <;> simp [h]

theorem decodedRecord_eq_loadedRecord (w : World) (output : Option GetObjectOutput)
    (h : (∃ e, w.ParseRawYaml [] = .error e) ∨ output ≠ some ⟨some (.ok [])⟩) :
    decodedRecord w output = loadedRecord w output := by
  rcases output with _ | ⟨_ | ⟨e | bytes⟩⟩
  · rfl
  · rfl
  · rfl
  · by_cases hb : bytes = []
    · subst hb
      rcases h with ⟨e, he⟩ | h
      · simp [decodedRecord, loadedRecord, he]
      · exact absurd rfl h
    · simp [decodedRecord, loadedRecord, hb]

/-- C9, counterexample. At `emptyBodyWorld` the body of the selected key
`c1/instancegroup/b` is fetched successfully and is empty (zero bytes), so the
specification's loader skips it; the source hands it to the decoder, the key
contributes a record without image reference, and although the only other
record matches the catalog, `runCheck` fails with that record's extraction
error. -/
theorem empty_body_contributes_record :
    selectedKey sampleConfig (some ⟨some "c1/instancegroup/b".toList⟩)
      = some "c1/instancegroup/b".toList ∧
    emptyBodyWorld.GetObject
        [.listObjects ⟨"state".toList, none⟩,
          .listObjects ⟨"state".toList, some "p2".toList⟩,
          .getObject ⟨"c1/instancegroup/a".toList, "state".toList⟩]
        ⟨"c1/instancegroup/b".toList, "state".toList⟩
      = .ok (some ⟨some (.ok [])⟩) ∧
    loadedRecord emptyBodyWorld (some ⟨some (.ok [])⟩) = none ∧
    (readInstanceGroupObjects sampleConfig emptyBodyWorld
        [.listObjects ⟨"state".toList, none⟩,
          .listObjects ⟨"state".toList, some "p2".toList⟩]
        (samplePage1.Contents ++ samplePage2.Contents)).2
      = ([some ⟨[], ⟨"kope.io/k8s-1.27".toList⟩⟩, some ⟨[], ⟨[]⟩⟩], none) ∧
    checkImagesAreAvailable [some ⟨[], ⟨"kope.io/k8s-1.27".toList⟩⟩]
        [some ⟨some "k8s-1.27-hvm".toList, none⟩] = [] ∧
    (runCheck 2 sampleConfig emptyBodyWorld []).map Prod.snd
      = some (some (.errorf "instance group  does not define an image".toList)) :=
  ⟨by decide, rfl, rfl, rfl, by decide, rfl⟩

/-- C9, amended. Skip policy of `readInstanceGroupObjects` at a selected key
whose `GetObject` request succeeds, after the objects `before` were read
without error.  The key contributes exactly the decoded record, and one only
if the output and its body are there, the body can be read and its bytes
decode; when the output or its body is nil ("object body was empty"), the body
cannot be read or decoding fails, the key contributes nothing and the run is
not aborted: the objects after it are processed as they are without it, and
when they are read without error, the catalog is fetched and all the other
records match, `runCheck` reports success.  A body of zero bytes is decoded
like any other: it contributes the record the decoder makes of it, and the
source agrees with the specification's loader whenever the body has a byte or
the decoder rejects the empty text. -/
theorem readInstanceGroupObjects_skip_policy (cfg : CheckConfig) (w : World)
    (log log1 : List AWSRequest) (before after : List (Option S3Object))
    (object : Option S3Object) (key : GoString) (records : List (Option InstanceGroup))
    (output : Option GetObjectOutput)
    (hbefore : readInstanceGroupObjects cfg w log before = (log1, records, none))
    (hsel : selectedKey cfg object = some key)
    (hfetch : w.GetObject log1 ⟨key, cfg.AWSS3BucketName⟩ = .ok output) :
    readInstanceGroupObjects cfg w log (before ++ object :: after)
      = ((readInstanceGroupObjects cfg w (log1 ++ [bodyRequest cfg key]) after).1,
          records ++ (decodedRecord w output).toList.map some ++
            (readInstanceGroupObjects cfg w (log1 ++ [bodyRequest cfg key]) after).2.1,
          (readInstanceGroupObjects cfg w (log1 ++ [bodyRequest cfg key]) after).2.2) ∧
    (∀ ig, decodedRecord w output = some ig ↔
      ∃ objectBytes, output = some ⟨some (.ok objectBytes)⟩ ∧
        w.ParseRawYaml objectBytes = .ok ig) ∧
    ((output = none ∨ output = some ⟨none⟩ ∨ (∃ e, output = some ⟨some (.error e)⟩) ∨
        ∃ objectBytes e, output = some ⟨some (.ok objectBytes)⟩ ∧
          w.ParseRawYaml objectBytes = .error e) →
      readInstanceGroupObjects cfg w log (before ++ object :: after)
        = ((readInstanceGroupObjects cfg w (log1 ++ [bodyRequest cfg key]) after).1,
            records ++ (readInstanceGroupObjects cfg w (log1 ++ [bodyRequest cfg key]) after).2.1,
            (readInstanceGroupObjects cfg w (log1 ++ [bodyRequest cfg key]) after).2.2) ∧
      ∀ (fuel : Nat) (log0 log2 log3 : List AWSRequest)
          (records2 : List (Option InstanceGroup)) (images : List (Option Image)),
        listS3Objects fuel cfg w log0 = some (log, before ++ object :: after, none) →
        readInstanceGroupObjects cfg w (log1 ++ [bodyRequest cfg key]) after
          = (log2, records2, none) →
        listEC2Images cfg w log2 = (log3, some images, none) →
        checkImagesAreAvailable (records ++ records2) images = [] →
        runCheck fuel cfg w log0 = some (log3, none)) ∧
    (∀ ig, output = some ⟨some (.ok [])⟩ → w.ParseRawYaml [] = .ok ig →
      readInstanceGroupObjects cfg w log (before ++ object :: after)
        = ((readInstanceGroupObjects cfg w (log1 ++ [bodyRequest cfg key]) after).1,
            records ++ [some ig] ++
              (readInstanceGroupObjects cfg w (log1 ++ [bodyRequest cfg key]) after).2.1,
            (readInstanceGroupObjects cfg w (log1 ++ [bodyRequest cfg key]) after).2.2)) ∧
    (((∃ e, w.ParseRawYaml [] = .error e) ∨ output ≠ some ⟨some (.ok [])⟩) →
      decodedRecord w output = loadedRecord w output) := by
  have hstep := readInstanceGroupObjects_step cfg w log log1 before after object key
    records hbefore hsel
  simp only [hfetch] at hstep
  refine ⟨hstep, decodedRecord_eq_some_iff w output, fun hskip => ?_, ?_,
    decodedRecord_eq_loadedRecord w output⟩
  swap
  · intro ig hout hparse
    have hsome : decodedRecord w output = some ig :=
      (decodedRecord_eq_some_iff w output ig).2 ⟨[], hout, hparse⟩
    rw [hstep, hsome]
    rfl
  have hnone : decodedRecord w output = none := (decodedRecord_eq_none_iff w output).2 hskip
  have hstep2 : readInstanceGroupObjects cfg w log (before ++ object :: after)
      = ((readInstanceGroupObjects cfg w (log1 ++ [bodyRequest cfg key]) after).1,
          records ++ (readInstanceGroupObjects cfg w (log1 ++ [bodyRequest cfg key]) after).2.1,
          (readInstanceGroupObjects cfg w (log1 ++ [bodyRequest cfg key]) after).2.2) := by
    rw [hstep, hnone]; simp
  refine ⟨hstep2, ?_⟩
  intro fuel log0 log2 log3 records2 images hlist hafter himages hmatch
  rw [hafter] at hstep2
  simp [runCheck, listKopsInstanceGroups, hlist, hstep2, himages, hmatch]

/-! ## The theorems at the example stores -/

theorem selectedKey_of_contains (cfg : CheckConfig) (key : GoString)
    (h1 : stringsContains key "/instancegroup/".toList = true)
    (h2 : stringsContains key cfg.ClusterName = true) :
    selectedKey cfg (some ⟨some key⟩) = some key := by
  simp only [selectedKey]
  exact if_pos ⟨(stringsContains_iff _ _).1 h1, (stringsContains_iff _ _).1 h2⟩

/-- At the example store the listing and the catalog fetch succeed, the one
record read matches the catalog, and `runCheck_verdict` gives success. -/
theorem runCheck_verdict_witness :
    (runCheck 2 sampleConfig sampleWorld []).map Prod.snd = some none := by
  have h := runCheck_verdict 2 sampleConfig sampleWorld [] _ _ _ _ rfl rfl
  rw [h.1.2 (by decide)]
  rfl

/-- The two pages of the example store, obtained from
`listS3Objects_pagination`: two requests, the second with the marker "p2",
and the six listed items in order. -/
theorem listS3Objects_pagination_witness :
    listS3Objects 2 sampleConfig sampleWorld []
      = some ([.listObjects ⟨"state".toList, none⟩,
            .listObjects ⟨"state".toList, some "p2".toList⟩],
          samplePage1.Contents ++ samplePage2.Contents, none) :=
  (listS3Objects_pagination sampleConfig sampleWorld [] [samplePage1, samplePage2] 2
    ⟨rfl, "p2".toList, rfl, by decide, rfl, Or.inr rfl⟩ (by decide)).1

/-- The store `repeatWorld` repeats the marker "m" once, and
`listS3Objects_repeated_marker` gives the three pages' items without error. -/
theorem listS3Objects_repeated_marker_witness :
    listS3Objects 3 sampleConfig repeatWorld []
      = some ([.listObjects ⟨"state".toList, none⟩,
            .listObjects ⟨"state".toList, some "m".toList⟩,
            .listObjects ⟨"state".toList, some "m".toList⟩],
          [some ⟨some "a".toList⟩, some ⟨some "a".toList⟩, some ⟨some "b".toList⟩], none) :=
  listS3Objects_repeated_marker.1 sampleConfig repeatWorld [] _ _ _ "m".toList 3
    (by decide) rfl rfl rfl rfl rfl (Or.inl rfl) (by decide)

/-- One selected and one excluded object of the example store, through
`readInstanceGroupObjects_filter`. -/
theorem readInstanceGroupObjects_filter_witness :
    (readInstanceGroupObjects sampleConfig sampleWorld []
        [some ⟨some "c1/instancegroup/a".toList⟩]).1
      = [.getObject ⟨"c1/instancegroup/a".toList, "state".toList⟩] ∧
    readInstanceGroupObjects sampleConfig sampleWorld []
        [some ⟨some "c2/instancegroup/a".toList⟩] = ([], [], none) ∧
    readInstanceGroupObjects sampleConfig sampleWorld []
        [some ⟨some "c1/config".toList⟩] = ([], [], none) :=
  ⟨(readInstanceGroupObjects_filter sampleConfig sampleWorld []).2.1
      "c1/instancegroup/a".toList (by decide) (by decide),
   (readInstanceGroupObjects_filter sampleConfig sampleWorld []).2.2.2.2.2.1
      "c2/instancegroup/a".toList (by decide),
   (readInstanceGroupObjects_filter sampleConfig sampleWorld []).2.2.2.2.1
      "c1/config".toList (by decide)⟩

/-- A list request that fails after the first page (`timeoutWorld`), a
`GetObject` request that fails at a selected key (the example store under the
cluster filter "c2"), and a body that cannot be read (`brokenBodyWorld`),
through `transport_failure_is_fatal`. -/
theorem transport_failure_is_fatal_witness :
    runCheck 1 sampleConfig timeoutWorld []
      = some ([.listObjects ⟨"state".toList, none⟩,
            .listObjects ⟨"state".toList, some "p2".toList⟩],
          some (.wrap "failed to list kops instance groups: ".toList
            (.errorf "RequestTimeout".toList))) ∧
    runCheck 2 ⟨"us-east-1".toList, "state".toList, "c2".toList⟩ sampleWorld []
      = some ([.listObjects ⟨"state".toList, none⟩,
            .listObjects ⟨"state".toList, some "p2".toList⟩,
            .getObject ⟨"c2/instancegroup/a".toList, "state".toList⟩],
          some (.wrap "failed to list kops instance groups: ".toList
            (.errorf "NoSuchKey".toList))) ∧
    readInstanceGroupObjects sampleConfig brokenBodyWorld []
        [some ⟨some "c1/instancegroup/a".toList⟩]
      = ([.getObject ⟨"c1/instancegroup/a".toList, "state".toList⟩], [], none) :=
  ⟨(transport_failure_is_fatal.1 sampleConfig timeoutWorld [] [samplePage1]
      (.errorf "RequestTimeout".toList) 1
      ⟨rfl, "p2".toList, rfl, by decide, rfl⟩ (by decide)).2.1,
   (transport_failure_is_fatal.2.1 ⟨"us-east-1".toList, "state".toList, "c2".toList⟩
      sampleWorld [] _ _
      (samplePage1.Contents ++ [some (S3Object.mk (some "c1/instancegroup/b".toList))])
      [some (S3Object.mk none)] (some ⟨some "c2/instancegroup/a".toList⟩) "c2/instancegroup/a".toList
      [] (.errorf "NoSuchKey".toList) 2 rfl rfl
      (selectedKey_of_contains _ _ (by decide) (by decide)) rfl).2.1,
   transport_failure_is_fatal.2.2 sampleConfig brokenBodyWorld [] [] [] []
      (some ⟨some "c1/instancegroup/a".toList⟩) "c1/instancegroup/a".toList []
      (.errorf "unexpected EOF".toList) rfl
      (selectedKey_of_contains _ _ (by decide) (by decide)) rfl⟩

/-- At the example store the object at `c1/instancegroup/b` comes without
body: by `readInstanceGroupObjects_skip_policy` it is skipped, the run goes
on, and the verdict is success. -/
theorem readInstanceGroupObjects_skip_policy_witness :
    (readInstanceGroupObjects sampleConfig sampleWorld
        [.listObjects ⟨"state".toList, none⟩, .listObjects ⟨"state".toList, some "p2".toList⟩]
        (samplePage1.Contents ++ samplePage2.Contents)).2
      = ([some ⟨"nodes".toList, ⟨"kope.io/k8s-1.27".toList⟩⟩], none) ∧
    (runCheck 2 sampleConfig sampleWorld []).map Prod.snd = some none := by
  have h := readInstanceGroupObjects_skip_policy sampleConfig sampleWorld
    [.listObjects ⟨"state".toList, none⟩, .listObjects ⟨"state".toList, some "p2".toList⟩]
    _ samplePage1.Contents [some ⟨some "c2/instancegroup/a".toList⟩, some ⟨none⟩]
    (some ⟨some "c1/instancegroup/b".toList⟩) "c1/instancegroup/b".toList _ (some ⟨none⟩)
    rfl (selectedKey_of_contains _ _ (by decide) (by decide)) rfl
  have hskip := h.2.2.1 (Or.inr (Or.inl rfl))
  constructor
  · exact (congrArg Prod.snd hskip.1).trans rfl
  · rw [hskip.2 2 [] _ _ _ _ rfl rfl rfl (by decide)]
    rfl

/-! ## Region validation -/

theorem matchHere_one (k : CharClass) (rest : List RegexItem) (atStart : Bool) (s : GoString) :
    matchHere (.one k :: rest) atStart s = true ↔
      ∃ c cs, s = c :: cs ∧ k.accepts c = true ∧ matchHere rest false cs = true := by
  cases s with
  | nil => simp [matchHere]
  | cons c cs =>
    simp only [matchHere, Bool.and_eq_true]
    constructor
    · intro h
      exact ⟨c, cs, rfl, h⟩
    · rintro ⟨c2, cs2, heq, h⟩
      cases heq
      exact h

theorem matchHere_ones (k : CharClass) (rest : List RegexItem) (n : Nat) :
    ∀ (atStart : Bool) (s : GoString),
      matchHere (List.replicate n (.one k) ++ rest) atStart s = true ↔
        ∃ a t, s = a ++ t ∧ a.length = n ∧ (∀ c ∈ a, k.accepts c = true) ∧
          matchHere rest (atStart && a.isEmpty) t = true := by
  induction n with
  | zero =>
    intro atStart s
    constructor
    · intro h
      exact ⟨[], s, rfl, rfl, by simp, by simpa using h⟩
    · rintro ⟨a, t, rfl, ha, -, h⟩
      obtain rfl : a = [] := List.length_eq_zero.1 ha
      simpa using h
  | succ n ih =>
    intro atStart s
    rw [List.replicate_succ, List.cons_append, matchHere_one]
    constructor
    · rintro ⟨c, cs, rfl, hc, h⟩
      obtain ⟨a, t, rfl, ha, hall, hrest⟩ := (ih false _).1 h
      refine ⟨c :: a, t, rfl, by simp [ha], ?_, by simpa using hrest⟩
      intro x hx
      rcases List.mem_cons.1 hx with rfl | hx
      · exact hc
      · exact hall x hx
    · rintro ⟨a, t, rfl, ha, hall, hrest⟩
      cases a with
      | nil => simp at ha
      | cons c a =>
        refine ⟨c, a ++ t, rfl, hall c (by simp), (ih false _).2 ⟨a, t, rfl, ?_, ?_, ?_⟩⟩
        · simpa using ha
        · exact fun x hx => hall x (by simp [hx])
        · simpa using hrest

theorem matchHere_opts (k : CharClass) (rest : List RegexItem) (n : Nat) :
    ∀ (atStart : Bool) (s : GoString),
      matchHere (List.replicate n (.opt k) ++ rest) atStart s = true ↔
        ∃ a t, s = a ++ t ∧ a.length ≤ n ∧ (∀ c ∈ a, k.accepts c = true) ∧
          matchHere rest (atStart && a.isEmpty) t = true := by
  induction n with
  | zero =>
    intro atStart s
    constructor
    · intro h
      exact ⟨[], s, rfl, by simp, by simp, by simpa using h⟩
    · rintro ⟨a, t, rfl, ha, -, h⟩
      obtain rfl : a = [] := List.length_eq_zero.1 (by omega)
      simpa using h
  | succ n ih =>
    intro atStart s
    rw [List.replicate_succ, List.cons_append]
    constructor
    · intro h
      simp only [matchHere, Bool.or_eq_true] at h
      rcases h with h | h
      · cases s with
        | nil => simp at h
        | cons c cs =>
          simp only [Bool.and_eq_true] at h
          obtain ⟨a, t, rfl, ha, hall, hrest⟩ := (ih false _).1 h.2
          refine ⟨c :: a, t, rfl, by simp [ha], ?_, by simpa using hrest⟩
          intro x hx
          rcases List.mem_cons.1 hx with rfl | hx
          · exact h.1
          · exact hall x hx
      · obtain ⟨a, t, rfl, ha, hall, hrest⟩ := (ih atStart _).1 h
        exact ⟨a, t, rfl, by omega, hall, hrest⟩
    · rintro ⟨a, t, rfl, ha, hall, hrest⟩
      simp only [matchHere, Bool.or_eq_true]
      cases a with
      | nil =>
        right
        exact (ih atStart _).2 ⟨[], t, rfl, by simp, by simp, hrest⟩
      | cons c a =>
        left
        simp only [List.cons_append, Bool.and_eq_true]
        refine ⟨hall c (by simp), (ih false _).2 ⟨a, t, rfl, ?_, ?_, ?_⟩⟩
        · simpa using ha
        · exact fun x hx => hall x (by simp [hx])
        · simpa using hrest

theorem matchFrom_beginText (rest : List RegexItem) (s : GoString) :
    matchFrom (.beginText :: rest) false s = false ∧
    matchFrom (.beginText :: rest) true s = matchHere rest true s := by
  have hfalse : ∀ t : GoString, matchFrom (.beginText :: rest) false t = false := by
    intro t
    induction t with
    | nil => simp [matchFrom, matchHere]
    | cons c cs ih => simp [matchFrom, matchHere, ih]
  refine ⟨hfalse s, ?_⟩
  cases s with
  | nil => simp [matchFrom, matchHere]
  | cons c cs => simp [matchFrom, matchHere, hfalse cs]

theorem awsRegionPattern_eq :
    awsRegionPattern
      = .beginText :: (List.replicate 2 (.one .word) ++ (.one (.lit '-') ::
          (List.replicate 4 (.one .word) ++ (List.replicate 5 (.opt .word) ++
            [.one (.lit '-'), .one .digit, .endText])))) := rfl

theorem matchHere_region_tail (atStart : Bool) (t : GoString) :
    matchHere [.one (.lit '-'), .one .digit, .endText] atStart t = true ↔
      ∃ d, t = ['-', d] ∧ d.isDigit = true := by
  rw [matchHere_one]
  constructor
  · rintro ⟨c, cs, rfl, hc, h⟩
    obtain ⟨d, ds, rfl, hd, hend⟩ := (matchHere_one _ _ _ _).1 h
    have hc2 : c = '-' := by simpa [CharClass.accepts] using hc
    have hds : ds = [] := by simpa [matchHere] using hend
    subst hc2 hds
    exact ⟨d, rfl, hd⟩
  · rintro ⟨d, rfl, hd⟩
    refine ⟨'-', [d], rfl, by simp [CharClass.accepts], ?_⟩
    exact (matchHere_one _ _ _ _).2 ⟨d, [], rfl, hd, by simp [matchHere]⟩

/-- C11. `validateAWSRegion` never returns an error, and it returns true
exactly for the strings made, from the first character to the last, of two
word characters (ASCII letters, ASCII digits, `_`), a hyphen, four to nine
word characters, a hyphen and one ASCII digit. -/
theorem validateAWSRegion_spec (value : GoString) :
    (validateAWSRegion value).2 = none ∧
    ((validateAWSRegion value).1 = true ↔
      ∃ a b d, value = a ++ '-' :: (b ++ ['-', d]) ∧ a.length = 2 ∧
        (∀ c ∈ a, (c.isAlphanum || c == '_') = true) ∧ 4 ≤ b.length ∧ b.length ≤ 9 ∧
        (∀ c ∈ b, (c.isAlphanum || c == '_') = true) ∧ d.isDigit = true) := by
  have hv : validateAWSRegion value
      = (matchHere (List.replicate 2 (.one .word) ++ (.one (.lit '-') ::
          (List.replicate 4 (.one .word) ++ (List.replicate 5 (.opt .word) ++
            [.one (.lit '-'), .one .digit, .endText])))) true value, none) := by
    simp only [validateAWSRegion, regexpMatchString, awsRegionPattern_eq,
      (matchFrom_beginText _ value).2]
  rw [hv]
  refine ⟨rfl, ?_⟩
  simp only []
  rw [matchHere_ones]
  constructor
  · rintro ⟨a, t1, rfl, ha, halla, h1⟩
    obtain ⟨c, t2, rfl, hc, h2⟩ := (matchHere_one _ _ _ _).1 h1
    have hc2 : c = '-' := by simpa [CharClass.accepts] using hc
    subst hc2
    obtain ⟨b1, t3, rfl, hb1, hallb1, h3⟩ := (matchHere_ones _ _ _ _ _).1 h2
    obtain ⟨b2, t4, rfl, hb2, hallb2, h4⟩ := (matchHere_opts _ _ _ _ _).1 h3
    obtain ⟨d, rfl, hd⟩ := (matchHere_region_tail _ _).1 h4
    refine ⟨a, b1 ++ b2, d, by simp, ha, halla, by simp; omega, by simp; omega, ?_, hd⟩
    intro x hx
    rcases List.mem_append.1 hx with hx | hx
    · exact hallb1 x hx
    · exact hallb2 x hx
  · rintro ⟨a, b, d, rfl, ha, halla, hb4, hb9, hallb, hd⟩
    refine ⟨a, _, rfl, ha, halla, ?_⟩
    refine (matchHere_one _ _ _ _).2 ⟨'-', _, rfl, by simp [CharClass.accepts], ?_⟩
    refine (matchHere_ones _ _ _ _ _).2 ⟨b.take 4, b.drop 4 ++ ['-', d], ?_, ?_, ?_, ?_⟩
    · rw [← List.append_assoc, List.take_append_drop]
    · simp; omega
    · exact fun x hx => hallb x (List.mem_of_mem_take hx)
    · refine (matchHere_opts _ _ _ _ _).2 ⟨b.drop 4, ['-', d], rfl, ?_, ?_, ?_⟩
      · simp; omega
      · exact fun x hx => hallb x (List.mem_of_mem_drop hx)
      · exact (matchHere_region_tail _ _).2 ⟨d, rfl, hd⟩

/-- The examples of `checkConfig_test.go`, and near misses, through
`validateAWSRegion_spec`. -/
theorem validateAWSRegion_spec_witness :
    validateAWSRegion "us-east-1".toList = (true, none) ∧
    validateAWSRegion "invalid".toList = (false, none) ∧
    validateAWSRegion "us-east-1\n".toList = (false, none) ∧
    validateAWSRegion "ap-southeast-2".toList = (true, none) ∧
    validateAWSRegion "us-gov-west-1".toList = (false, none) :=
  ⟨Prod.ext ((validateAWSRegion_spec "us-east-1".toList).2.2
      ⟨"us".toList, "east".toList, '1', rfl, rfl, by decide, by decide, by decide,
        by decide, by decide⟩) (validateAWSRegion_spec _).1,
   by decide, by decide, by decide, by decide⟩

/-! ## Target names of white space -/

theorem stringsTrimSpace_of_whitespace (s : GoString)
    (h : ∀ c ∈ s, unicodeIsSpace c = true) : stringsTrimSpace s = [] := by
  have hd : s.dropWhile unicodeIsSpace = [] := List.dropWhile_eq_nil_iff.2 h
  simp [stringsTrimSpace, hd]

theorem stringsContains_nil (s : GoString) : stringsContains s [] = true :=
  (stringsContains_iff s []).2 List.nil_infix

theorem not_mem_slash_of_whitespace (s : GoString)
    (h : ∀ c ∈ s, unicodeIsSpace c = true) : '/' ∉ s := by
  intro hmem
  have := h '/' hmem
  revert this
  decide

theorem imageMatchesInstanceGroup_of_whitespace (target : GoString) (entry : Image)
    (ht : WhitespaceOnly target) (he : HasNameOrLocation entry) :
    imageMatchesInstanceGroup (some entry) target = true := by
  have hlen : target.length ≠ 0 := by simpa using ht.1
  have htrim := stringsTrimSpace_of_whitespace target ht.2
  obtain ⟨name, location⟩ := entry
  cases name with
  | some n => simp [imageMatchesInstanceGroup, hlen, htrim, stringsContains_nil]
  | none =>
    cases location with
    | some l => simp [imageMatchesInstanceGroup, hlen, htrim, stringsContains_nil]
    | none => exact absurd he (by simp [HasNameOrLocation])

theorem extract_second_segment (name owner segment rest : GoString) (ho : '/' ∉ owner)
    (hs : '/' ∉ segment) (hrest : rest = [] ∨ ∃ r, rest = '/' :: r) :
    extractInstanceGroupImageName (some ⟨name, ⟨owner ++ '/' :: (segment ++ rest)⟩⟩)
      = .ok segment := by
  have hsplit : ∃ tl, stringsSplit (owner ++ '/' :: (segment ++ rest)) '/'
      = owner :: segment :: tl := by
    rw [stringsSplit_append _ _ _ ho]
    rcases hrest with rfl | ⟨r, rfl⟩
    · rw [List.append_nil, stringsSplit_of_not_mem _ _ hs]; exact ⟨[], rfl⟩
    · rw [stringsSplit_append _ _ _ hs]; exact ⟨_, rfl⟩
  obtain ⟨tl, htl⟩ := hsplit
  simp [extractInstanceGroupImageName, htl]

theorem checkImagesAreAvailable_drop (images : List (Option Image)) (g : InstanceGroup)
    (before after : List (Option InstanceGroup))
    (h : recordDiagnostic images (some g) = none) :
    checkImagesAreAvailable [some g] images = [] ∧
    checkImagesAreAvailable (before ++ some g :: after) images
      = checkImagesAreAvailable (before ++ after) images := by
  have hf : ∀ gs, checkImagesAreAvailable gs images
      = gs.filterMap (recordDiagnostic images) := by
    intro gs
    simp [checkImagesAreAvailable, foldl_checkGroup]
  simp [hf, List.filterMap_append, List.filterMap_cons, h]

theorem recordDiagnostic_of_whitespace (images : List (Option Image)) (g : InstanceGroup)
    (target : GoString) (hx : extractInstanceGroupImageName (some g) = .ok target)
    (ht : WhitespaceOnly target)
    (hc : ∃ entry, some entry ∈ images ∧ HasNameOrLocation entry) :
    recordDiagnostic images (some g) = none := by
  obtain ⟨entry, hmem, he⟩ := hc
  have hex : ∃ image ∈ images, imageMatchesInstanceGroup image target = true :=
    ⟨some entry, hmem, imageMatchesInstanceGroup_of_whitespace target entry ht he⟩
  simp only [recordDiagnostic, hx]
  exact if_pos hex

/-- C12. A target name that is not empty and consists of white space only
matches every catalog entry that has a name or a location.  Hence a record
whose image reference is such a text, or whose second `/`-delimited segment
is, passes extraction with that text as target and adds no diagnostic to the
result of `checkImagesAreAvailable` as soon as the catalog holds one entry
with a name or a location.  The target name of length zero matches no entry. -/
theorem whitespace_target_matches_every_entry :
    (∀ (target : GoString) (entry : Image), WhitespaceOnly target →
      HasNameOrLocation entry → imageMatchesInstanceGroup (some entry) target = true) ∧
    (∀ (name ref : GoString) (images : List (Option Image))
        (before after : List (Option InstanceGroup)),
      WhitespaceOnly ref → (∃ entry, some entry ∈ images ∧ HasNameOrLocation entry) →
      extractInstanceGroupImageName (some ⟨name, ⟨ref⟩⟩) = .ok ref ∧
      checkImagesAreAvailable [some ⟨name, ⟨ref⟩⟩] images = [] ∧
      checkImagesAreAvailable (before ++ some ⟨name, ⟨ref⟩⟩ :: after) images
        = checkImagesAreAvailable (before ++ after) images) ∧
    (∀ (name owner segment rest : GoString) (images : List (Option Image))
        (before after : List (Option InstanceGroup)),
      '/' ∉ owner → WhitespaceOnly segment → (rest = [] ∨ ∃ r, rest = '/' :: r) →
      (∃ entry, some entry ∈ images ∧ HasNameOrLocation entry) →
      extractInstanceGroupImageName (some ⟨name, ⟨owner ++ '/' :: (segment ++ rest)⟩⟩)
        = .ok segment ∧
      checkImagesAreAvailable [some ⟨name, ⟨owner ++ '/' :: (segment ++ rest)⟩⟩] images
        = [] ∧
      checkImagesAreAvailable
          (before ++ some ⟨name, ⟨owner ++ '/' :: (segment ++ rest)⟩⟩ :: after) images
        = checkImagesAreAvailable (before ++ after) images) ∧
    (∀ image : Option Image, imageMatchesInstanceGroup image [] = false) := by
  refine ⟨imageMatchesInstanceGroup_of_whitespace, ?_, ?_, ?_⟩
  · intro name ref images before after ht hc
    have hx : extractInstanceGroupImageName (some ⟨name, ⟨ref⟩⟩) = .ok ref := by
      have hlen : ref.length ≠ 0 := by simpa using ht.1
      have hno := not_mem_slash_of_whitespace ref ht.2
      simp [extractInstanceGroupImageName, hlen, stringsSplit_of_not_mem _ _ hno]
    exact ⟨hx, checkImagesAreAvailable_drop images _ before after
      (recordDiagnostic_of_whitespace images _ ref hx ht hc)⟩
  · intro name owner segment rest images before after ho ht hrest hc
    have hx := extract_second_segment name owner segment rest ho
      (not_mem_slash_of_whitespace segment ht.2) hrest
    exact ⟨hx, checkImagesAreAvailable_drop images _ before after
      (recordDiagnostic_of_whitespace images _ segment hx ht hc)⟩
  · intro image
    cases image with
    | none => rfl
    | some entry => simp [imageMatchesInstanceGroup]

/-- A target of a blank and a tab against an unrelated entry, a record whose
reference is two blanks, and a record whose second segment is one blank,
through `whitespace_target_matches_every_entry`. -/
theorem whitespace_target_matches_every_entry_witness :
    imageMatchesInstanceGroup (some ⟨some "other".toList, none⟩) " \t".toList = true ∧
    checkImagesAreAvailable [some ⟨"ig".toList, ⟨"  ".toList⟩⟩]
        [none, some ⟨none, some "kope.io/k8s-1.27".toList⟩] = [] ∧
    extractInstanceGroupImageName (some ⟨"ig".toList, ⟨"kope.io/ /x".toList⟩⟩)
      = .ok " ".toList ∧
    checkImagesAreAvailable [some ⟨"ig".toList, ⟨"kope.io/ /x".toList⟩⟩]
        [some ⟨some "other".toList, none⟩] = [] :=
  ⟨whitespace_target_matches_every_entry.1 " \t".toList ⟨some "other".toList, none⟩
      ⟨by decide, by decide⟩ (Or.inl (by decide)),
   (whitespace_target_matches_every_entry.2.1 "ig".toList "  ".toList
      [none, some ⟨none, some "kope.io/k8s-1.27".toList⟩] [] []
      ⟨by decide, by decide⟩
      ⟨⟨none, some "kope.io/k8s-1.27".toList⟩, by decide, Or.inr (by decide)⟩).2.1,
   (whitespace_target_matches_every_entry.2.2.1 "ig".toList "kope.io".toList " ".toList
      "/x".toList [some ⟨some "other".toList, none⟩] [] [] (by decide)
      ⟨by decide, by decide⟩ (Or.inr ⟨"x".toList, rfl⟩)
      ⟨⟨some "other".toList, none⟩, by decide, Or.inl (by decide)⟩).1,
   (whitespace_target_matches_every_entry.2.2.1 "ig".toList "kope.io".toList " ".toList
      "/x".toList [some ⟨some "other".toList, none⟩] [] [] (by decide)
      ⟨by decide, by decide⟩ (Or.inr ⟨"x".toList, rfl⟩)
      ⟨⟨some "other".toList, none⟩, by decide, Or.inl (by decide)⟩).2.1⟩

end AmiCheck
